import Mathlib

/-!
# turning-back: the budget-request handlers

A shallow embedding of `internal/infrastructure/handlers/orcamento_handler.go`
(`CreateOrcamento`, `GetOrcamento`), of the entities they build
(`internal/domain/entities`) and of the three library calls whose behaviour the
handlers branch on:

* `c.ShouldBindJSON(&request)`: `encoding/json` decoding into
  `CreateOrcamentoRequest` followed by the `binding:"..."` rules of its fields;
* `strconv.ParseUint(idStr, 10, 32)`;
* the repository interface `interfaces.OrcamentoRepository`.

Logging calls have no effect on the response or on the repository and are left
out.
-/

namespace TurningBack

/-! ## JSON documents -/

/-- A JSON number literal. `int i` is a literal made of an optional minus sign
and digits only; `dec m e` is a literal that has a fraction or an exponent part
and denotes `m * 10 ^ e`. -/
inductive JNumber where
  | int (i : Int)
  | dec (mant : Int) (exp10 : Int)

/-- A JSON value as the decoder reads it; object members keep the order and the
repetitions of the text. -/
inductive JValue where
  | null
  | bool (b : Bool)
  | num (n : JNumber)
  | str (s : String)
  | arr (items : List JValue)
  | obj (members : List (String × JValue))

/-- The least magnitude that `strconv.ParseFloat(s, 64)` rounds to infinity,
`2^1024 - 2^970`: halfway between the largest finite float64 and `2^1024`. -/
def float64Overflow : Nat := 2 ^ 1024 - 2 ^ 970

/-- Whether `convertNumber` (`strconv.ParseFloat(s, 64)`) accepts the literal:
it fails with a range error exactly when the value rounds to an infinity. -/
def JNumber.fitsFloat64 : JNumber → Bool
  | .int i => decide (i.natAbs < float64Overflow)
  | .dec m e =>
    if 0 ≤ e then decide (m.natAbs * 10 ^ e.toNat < float64Overflow)
    else decide (m.natAbs < float64Overflow * 10 ^ (-e).toNat)

/-- Whether a value can be stored into an `interface{}`: every number literal
inside it has to convert to a float64 (`literalInterface`, `arrayInterface`,
`objectInterface` all go through `convertNumber`). -/
def JValue.storable : JValue → Bool
  | .null => true
  | .bool _ => true
  | .num n => n.fitsFloat64
  | .str _ => true
  | .arr items => storableList items
  | .obj members => storableMembers members
where
  /-- Every item of an array is storable. -/
  storableList : List JValue → Bool
    | [] => true
    | v :: vs => v.storable && storableList vs
  /-- Every member value of an object is storable. -/
  storableMembers : List (String × JValue) → Bool
    | [] => true
    | (_, v) :: ms => v.storable && storableMembers ms

/-- The nesting limit of the decoder's scanner (`maxNestingDepth` of
`encoding/json`): a value that opens more arrays and objects inside one another
than this is refused with "exceeded max depth". -/
def maxNestingDepth : Nat := 10000

/-- How many arrays and objects a value opens inside one another, itself
included: `0` for a literal, `1` for an empty array or object. -/
def JValue.depth : JValue → Nat
  | .null => 0
  | .bool _ => 0
  | .num _ => 0
  | .str _ => 0
  | .arr items => 1 + depthList items
  | .obj members => 1 + depthMembers members
where
  /-- The deepest item of an array. -/
  depthList : List JValue → Nat
    | [] => 0
    | v :: vs => max v.depth (depthList vs)
  /-- The deepest member value of an object. -/
  depthMembers : List (String × JValue) → Nat
    | [] => 0
    | (_, v) :: ms => max v.depth (depthMembers ms)

/-! ## Entities -/

/-- The entity `entities.Orcamento`. Timestamps are seconds; the zero
`time.Time` is `0`, an unset `gorm.DeletedAt` is `none`. -/
structure Orcamento where
  ID : Nat := 0
  CreatedAt : Nat := 0
  UpdatedAt : Nat := 0
  DeletedAt : Option Nat := none
  QuantidadePecas : Int := 0
  Descricao : String := ""
  Nome : String := ""
  Anexo : String := ""
  Email : String := ""
  Telefone : String := ""
  deriving DecidableEq, Repr

/-- The entity `entities.User`. -/
structure User where
  ID : Nat := 0
  CreatedAt : Nat := 0
  UpdatedAt : Nat := 0
  DeletedAt : Option Nat := none
  Email : String := ""
  Username : String := ""
  FirstName : String := ""
  LastName : String := ""
  Password : String := ""
  IsActive : Bool := false
  Role : String := ""
  deriving DecidableEq, Repr

/-- The method `func (u *User) FullName() string`. The receiver is a pointer, so
the user the method leaves behind is returned next to the result. -/
def User.FullName (u : User) : String × User :=
  (u.FirstName ++ " " ++ u.LastName, u)

/-! ## Binding the request body -/

/-- The struct `CreateOrcamentoRequest`; the defaults are Go's zero values and
`Anexo = .null` is the nil `interface{}`. -/
structure CreateOrcamentoRequest where
  Nome : String := ""
  Email : String := ""
  Telefone : String := ""
  QuantidadePecas : Int := 0
  QuantidadePecasAlt : Int := 0
  Descricao : String := ""
  Anexo : JValue := .null
  FileUploadEnabled : Bool := false

/-- Why `ShouldBindJSON` failed. -/
inductive BindError where
  | badSyntax
  | unmarshalType (field : String)
  | validation (failed : List (String × String))
  deriving DecidableEq, Repr

/-- A stand-in for the text of `err.Error()`. The libraries' own wording (it
names the literal, the struct and the field path, and is `EOF` for an empty
body) is not reproduced: only the `details` field of a response carries it, and
the statements below leave that text existential. -/
def BindError.Error : BindError → String
  | .badSyntax => "invalid character in JSON input"
  | .unmarshalType field => "json: cannot unmarshal into Go struct field " ++ field
  | .validation failed =>
    String.intercalate "\n" (failed.map fun (f, tag) =>
      "Key: " ++ f ++ " Error:Field validation for " ++ f ++ " failed on the " ++ tag ++ " tag")

/-- Case folding of one character of an object key, as a code point. Only the
classes of the ASCII letters matter, since keys are compared with ASCII field
names: a lower-case letter folds to its capital, and so do the long s (U+017F)
and the Kelvin sign (U+212A). -/
def foldRune (c : Char) : Nat :=
  let n := c.toNat
  if 97 ≤ n ∧ n ≤ 122 then n - 32
  else if n = 0x17F then 83
  else if n = 0x212A then 75
  else n

/-- The folded form of a key. -/
def foldName (s : String) : List Nat := s.toList.map foldRune

/-- `encoding/json` matches an object key with a field name exactly or, failing
that, case-insensitively; the request's field names all fold differently, so
both lookups amount to comparing folded names. -/
def equalFold (key name : String) : Bool := foldName key == foldName name

/-- Storing a value into a `string` field: a string is stored, `null` leaves the
field as it is, anything else is an `UnmarshalTypeError`. -/
def storeString (field : String) (old : String) : JValue → Except BindError String
  | .str s => .ok s
  | .null => .ok old
  | _ => .error (.unmarshalType field)

/-- Storing a value into an `int` field (64 bits): only an integer literal that
`strconv.ParseInt(s, 10, 64)` accepts is stored; `null` leaves the field as it
is. -/
def storeInt (field : String) (old : Int) : JValue → Except BindError Int
  | .num (.int i) =>
    if -(2 ^ 63 : Int) ≤ i ∧ i < 2 ^ 63 then .ok i else .error (.unmarshalType field)
  | .null => .ok old
  | _ => .error (.unmarshalType field)

/-- Storing a value into a `bool` field. -/
def storeBool (field : String) (old : Bool) : JValue → Except BindError Bool
  | .bool b => .ok b
  | .null => .ok old
  | _ => .error (.unmarshalType field)

/-- Storing a value into an `interface{}` field: any value is stored (`null`
stores nil) as long as its numbers convert to float64. -/
def storeAny (field : String) (v : JValue) : Except BindError JValue :=
  if v.storable then .ok v else .error (.unmarshalType field)

/-- One member of the body's object: the field its key names, if any, receives
the value; a key that names no field is skipped. -/
def setField (req : CreateOrcamentoRequest) (key : String) (v : JValue) :
    Except BindError CreateOrcamentoRequest :=
  if equalFold key "nome" then
    (storeString "nome" req.Nome v).map fun s => { req with Nome := s }
  else if equalFold key "email" then
    (storeString "email" req.Email v).map fun s => { req with Email := s }
  else if equalFold key "telefone" then
    (storeString "telefone" req.Telefone v).map fun s => { req with Telefone := s }
  else if equalFold key "quantidade_pecas" then
    (storeInt "quantidade_pecas" req.QuantidadePecas v).map fun i =>
      { req with QuantidadePecas := i }
  else if equalFold key "quantidadePecas" then
    (storeInt "quantidadePecas" req.QuantidadePecasAlt v).map fun i =>
      { req with QuantidadePecasAlt := i }
  else if equalFold key "descricao" then
    (storeString "descricao" req.Descricao v).map fun s => { req with Descricao := s }
  else if equalFold key "anexo" then
    (storeAny "anexo" v).map fun a => { req with Anexo := a }
  else if equalFold key "fileUploadEnabled" then
    (storeBool "fileUploadEnabled" req.FileUploadEnabled v).map fun b =>
      { req with FileUploadEnabled := b }
  else .ok req

/-- The members of an object are stored one after the other, left to right, so
a repeated key overwrites what an earlier one stored. -/
def decodeMembers (req : CreateOrcamentoRequest) :
    List (String × JValue) → Except BindError CreateOrcamentoRequest
  | [] => .ok req
  | (k, v) :: rest =>
    match setField req k v with
    | .error e => .error e
    | .ok req1 => decodeMembers req1 rest

/-- Storing the body's value into a zero request: a top-level `null` leaves the
struct untouched, an object is stored member by member, any other value is an
`UnmarshalTypeError`. -/
def decodeValue : JValue → Except BindError CreateOrcamentoRequest
  | .null => .ok {}
  | .obj members => decodeMembers {} members
  | _ => .error (.unmarshalType "")

/-- `json.NewDecoder(body).Decode(&request)` on a zero request. The scanner
reads the whole value before anything is stored: `none` is a body whose text is
not a JSON value, and a value nested deeper than `maxNestingDepth` (anywhere,
also under a key that names no field) is a syntax error too. -/
def decodeJSON : Option JValue → Except BindError CreateOrcamentoRequest
  | none => .error .badSyntax
  | some v => if maxNestingDepth < v.depth then .error .badSyntax else decodeValue v

/-- The `binding` tags of `CreateOrcamentoRequest`, in field order: `required`
fails on the zero value, `omitempty` skips the rules after it on the zero
value, `email` asks the validator's email pattern, `min=1` compares an int. The
email pattern is the validator library's and is a parameter here. -/
def validateStruct (isEmail : String → Bool) (req : CreateOrcamentoRequest) :
    List (String × String) :=
  (if req.Nome = "" then [("Nome", "required")] else []) ++
  (if req.Email ≠ "" ∧ isEmail req.Email = false then [("Email", "email")] else []) ++
  (if req.Telefone = "" then [("Telefone", "required")] else []) ++
  (if req.QuantidadePecas ≠ 0 ∧ req.QuantidadePecas < 1 then
    [("QuantidadePecas", "min")] else []) ++
  (if req.QuantidadePecasAlt ≠ 0 ∧ req.QuantidadePecasAlt < 1 then
    [("QuantidadePecasAlt", "min")] else [])

/-- `c.ShouldBindJSON(&request)`: decode, then validate. -/
def ShouldBindJSON (isEmail : String → Bool) (doc : Option JValue) :
    Except BindError CreateOrcamentoRequest :=
  match decodeJSON doc with
  | .error e => .error e
  | .ok req =>
    match validateStruct isEmail req with
    | [] => .ok req
    | f :: fs => .error (.validation (f :: fs))

/-! ## Responses and the repository -/

/-- A value of a `gin.H` response object: a text or a marshalled entity. -/
inductive BodyValue where
  | text (s : String)
  | orcamento (o : Orcamento)
  deriving DecidableEq, Repr

/-- The argument of `c.JSON`: a `gin.H` object, fields in the order the source
lists them, or the entity alone. -/
inductive Body where
  | H (fields : List (String × BodyValue))
  | entity (o : Orcamento)
  deriving DecidableEq, Repr

/-- The field names of a response body; the bare entity has no envelope. -/
def Body.keys : Body → List String
  | .H fields => fields.map Prod.fst
  | .entity _ => []

/-- What `c.JSON(status, body)` sends. -/
structure Response where
  status : Nat
  body : Body
  deriving DecidableEq, Repr

/-- An error of the repository: gorm's `ErrRecordNotFound` or any other failure
of the store. -/
inductive RepoError where
  | recordNotFound
  | other (msg : String)
  deriving DecidableEq, Repr

/-- The text of `err.Error()`. -/
def RepoError.Error : RepoError → String
  | .recordNotFound => "record not found"
  | .other msg => msg

/-- The interface `interfaces.OrcamentoRepository`, restricted to the methods
the two handlers call. `Create` receives a pointer: on success it returns the
entity as the store left it (id and timestamps assigned). -/
structure OrcamentoRepository where
  Create : Orcamento → Except RepoError Orcamento
  GetByID : Nat → Except RepoError Orcamento

/-- The request body: its bytes as text and the JSON value the decoder reads
from them, `none` when they are not well-formed JSON. -/
structure RequestBody where
  raw : String
  doc : Option JValue

/-- What a run of `CreateOrcamento` does: the response it sends and the
entities it passed to the repository's `Create`, in call order. -/
structure CreateOutcome where
  response : Response
  created : List Orcamento
  deriving DecidableEq, Repr

/-- The help text of the invalid-payload response. -/
def helpInvalid : String :=
  "Campos obrigatórios: nome, telefone, quantidade_pecas (ou quantidadePecas). Email é opcional."

/-- The help text of the missing-quantity response. -/
def helpQuantity : String :=
  "Use \x27quantidade_pecas\x27 ou \x27quantidadePecas\x27 com valor maior que 0"

/-- The handler `(*OrcamentoHandler).CreateOrcamento`. `body` is the result of
`io.ReadAll(c.Request.Body)`. -/
def CreateOrcamento (isEmail : String → Bool) (repo : OrcamentoRepository)
    (body : Except String RequestBody) : CreateOutcome :=
  match body with
  | .error err =>
    ⟨⟨400, .H [("error", .text "Erro ao ler dados da requisição"),
                ("details", .text err)]⟩, []⟩
  | .ok bodyBytes =>
    match ShouldBindJSON isEmail bodyBytes.doc with
    | .error err =>
      ⟨⟨400, .H [("error", .text "Invalid request data"),
                  ("details", .text err.Error),
                  ("received_json", .text bodyBytes.raw),
                  ("help", .text helpInvalid)]⟩, []⟩
    | .ok request =>
      let orcamento : Orcamento :=
        { Nome := request.Nome, Email := request.Email,
          Telefone := request.Telefone, Descricao := request.Descricao }
      let quantidade : Option Int :=
        if request.QuantidadePecas > 0 then some request.QuantidadePecas
        else if request.QuantidadePecasAlt > 0 then some request.QuantidadePecasAlt
        else none
      match quantidade with
      | none =>
        ⟨⟨400, .H [("error", .text "Quantidade de peças é obrigatória"),
                    ("help", .text helpQuantity)]⟩, []⟩
      | some q =>
        let orcamento := { orcamento with QuantidadePecas := q }
        let orcamento :=
          match request.Anexo with
          | .str anexoStr => { orcamento with Anexo := anexoStr }
          | _ => orcamento
        match repo.Create orcamento with
        | .error err =>
          ⟨⟨500, .H [("error", .text "Failed to create orcamento"),
                      ("details", .text err.Error)]⟩, [orcamento]⟩
        | .ok stored =>
          ⟨⟨201, .H [("message", .text "Orçamento criado com sucesso"),
                      ("orcamento", .orcamento stored)]⟩, [orcamento]⟩

/-- Why the handler turns a body down before it reaches the repository. -/
inductive RejectionReason where
  | InvalidPayload (detail : String)
  | MissingQuantity
  deriving DecidableEq, Repr

/-- The part of `CreateOrcamento` between reading the body and calling the
repository (the bind, the entity literal, the quantity branches and the
`anexo` type assertion), as a function of the body's JSON: the entity the
handler is about to create, or the reason it answers 400. -/
def normalize (isEmail : String → Bool) (doc : Option JValue) :
    Except RejectionReason Orcamento :=
  match ShouldBindJSON isEmail doc with
  | .error err => .error (.InvalidPayload err.Error)
  | .ok request =>
    let orcamento : Orcamento :=
      { Nome := request.Nome, Email := request.Email,
        Telefone := request.Telefone, Descricao := request.Descricao }
    if request.QuantidadePecas > 0 then
      let orcamento := { orcamento with QuantidadePecas := request.QuantidadePecas }
      match request.Anexo with
      | .str anexoStr => .ok { orcamento with Anexo := anexoStr }
      | _ => .ok orcamento
    else if request.QuantidadePecasAlt > 0 then
      let orcamento := { orcamento with QuantidadePecas := request.QuantidadePecasAlt }
      match request.Anexo with
      | .str anexoStr => .ok { orcamento with Anexo := anexoStr }
      | _ => .ok orcamento
    else .error .MissingQuantity

/-- An error of `strconv.ParseUint`. -/
inductive NumError where
  | ErrSyntax
  | ErrRange
  deriving DecidableEq, Repr

/-- The digit loop of `strconv.ParseUint` in base 10 over the characters left,
`n` being the uint64 read so far. A character that is not a decimal digit is a
syntax error; `n >= cutoff` (with `cutoff = maxUint64/10 + 1`), a wrapped sum or
a sum above `maxVal` is a range error. -/
def parseUintLoop (maxVal : Nat) : Nat → List Char → Except NumError Nat
  | n, [] => .ok n
  | n, c :: cs =>
    if 48 ≤ c.toNat ∧ c.toNat ≤ 57 then
      let d := c.toNat - 48
      if n ≥ (2 ^ 64 - 1) / 10 + 1 then .error .ErrRange
      else
        let n10 := n * 10
        let n1 := (n10 + d) % 2 ^ 64
        if n1 < n10 ∨ n1 > maxVal then .error .ErrRange
        else parseUintLoop maxVal n1 cs
    else .error .ErrSyntax

/-- `strconv.ParseUint(s, 10, bitSize)` for `0 < bitSize ≤ 64`. -/
def ParseUint (s : String) (bitSize : Nat) : Except NumError Nat :=
  if s = "" then .error .ErrSyntax
  else parseUintLoop (2 ^ bitSize - 1) 0 s.toList

/-- What a run of `GetOrcamento` does: the response it sends and the ids it
passed to the repository's `GetByID`, in call order. -/
structure GetOutcome where
  response : Response
  lookedUp : List Nat
  deriving DecidableEq, Repr

/-- The handler `(*OrcamentoHandler).GetOrcamento`; `idStr` is `c.Param("id")`. -/
def GetOrcamento (repo : OrcamentoRepository) (idStr : String) : GetOutcome :=
  match ParseUint idStr 32 with
  | .error _ => ⟨⟨400, .H [("error", .text "Invalid ID format")]⟩, []⟩
  | .ok id =>
    match repo.GetByID id with
    | .error _ => ⟨⟨404, .H [("error", .text "Orçamento não encontrado")]⟩, [id]⟩
    | .ok orcamento => ⟨⟨200, .entity orcamento⟩, [id]⟩

/-! ## What a payload says about a field -/

/-- Whether a value is the literal `null`. -/
def JValue.isNull : JValue → Bool
  | .null => true
  | _ => false

/-- The text of a string value, empty for any other value. -/
def JValue.text : JValue → String
  | .str s => s
  | _ => ""

/-- The integer of an integer-literal value, `0` for any other value. -/
def JValue.integer : JValue → Int
  | .num (.int i) => i
  | _ => 0

/-- The value a payload gives for a field name: that of the last member whose
key names the field, `none` when no key does. -/
def lastMember (name : String) : List (String × JValue) → Option JValue
  | [] => none
  | (k, v) :: rest =>
    match lastMember name rest with
    | some x => some x
    | none => if equalFold k name then some v else none

/-- The same, members whose value is `null` left aside. -/
def lastNonNull (name : String) : List (String × JValue) → Option JValue
  | [] => none
  | (k, v) :: rest =>
    match lastNonNull name rest with
    | some x => some x
    | none => if equalFold k name && !v.isNull then some v else none

/-- The text a payload gives for a string field on top of an earlier value
`old`: `old` when the field is absent or only ever `null`. -/
def strFrom (old : String) (name : String) (ms : List (String × JValue)) : String :=
  match lastNonNull name ms with
  | some v => v.text
  | none => old

/-- The integer a payload gives for an int field on top of an earlier value. -/
def intFrom (old : Int) (name : String) (ms : List (String × JValue)) : Int :=
  match lastNonNull name ms with
  | some v => v.integer
  | none => old

/-- The text a body gives for a string field: empty when the body is not an
object, when the field is absent or `null`, and when its value is no string. -/
def strMember (name : String) : Option JValue → String
  | some (.obj ms) => strFrom "" name ms
  | _ => ""

/-- The integer a body gives for an int field, `0` when absent or `null`. -/
def intMember (name : String) : Option JValue → Int
  | some (.obj ms) => intFrom 0 name ms
  | _ => 0

/-- A payload's members without those whose key names the field. -/
def dropField (name : String) (ms : List (String × JValue)) : List (String × JValue) :=
  ms.filter fun kv => !equalFold kv.1 name

/-- A request with its `Anexo` replaced. -/
def withAnexo (a : JValue) (r : CreateOrcamentoRequest) : CreateOrcamentoRequest :=
  { r with Anexo := a }

/-- The entity the handler builds from a bound request once the quantity `q`
is chosen. -/
def entityOf (req : CreateOrcamentoRequest) (q : Int) : Orcamento :=
  { Nome := req.Nome, Email := req.Email, Telefone := req.Telefone,
    Descricao := req.Descricao, QuantidadePecas := q, Anexo := req.Anexo.text }

/-- The end of `CreateOrcamento`: the call of `Create` and the two responses
that follow it. -/
def persist (repo : OrcamentoRepository) (o : Orcamento) : CreateOutcome :=
  match repo.Create o with
  | .error err =>
    ⟨⟨500, .H [("error", .text "Failed to create orcamento"),
                ("details", .text err.Error)]⟩, [o]⟩
  | .ok stored =>
    ⟨⟨201, .H [("message", .text "Orçamento criado com sucesso"),
                ("orcamento", .orcamento stored)]⟩, [o]⟩

/-- The outcome of the invalid-payload branch. -/
def invalidOutcome (detail raw : String) : CreateOutcome :=
  ⟨⟨400, .H [("error", .text "Invalid request data"), ("details", .text detail),
              ("received_json", .text raw), ("help", .text helpInvalid)]⟩, []⟩

/-- The outcome of the missing-quantity branch. -/
def missingOutcome : CreateOutcome :=
  ⟨⟨400, .H [("error", .text "Quantidade de peças é obrigatória"),
              ("help", .text helpQuantity)]⟩, []⟩

/-! ## Well-formed ids -/

/-- Whether a character is a decimal digit. -/
def isDigit (c : Char) : Bool := decide (48 ≤ c.toNat) && decide (c.toNat ≤ 57)

/-- The number a sequence of decimal digits denotes, on top of `n`. -/
def decimalFrom (n : Nat) (cs : List Char) : Nat :=
  cs.foldl (fun acc c => acc * 10 + (c.toNat - 48)) n

/-- The number a string of decimal digits denotes. -/
def decimalValue (s : String) : Nat := decimalFrom 0 s.toList

/-- A well-formed unsigned integer in the sense of the handler: a non-empty
string of decimal digits, no sign, whose value fits 32 bits. -/
def wellFormedUint32 (s : String) : Prop :=
  s ≠ "" ∧ (∀ c ∈ s.toList, isDigit c = true) ∧ decimalValue s < 2 ^ 32

/-! ## Concrete runs -/

/-- A stand-in for the validator's email pattern where a run is evaluated: it
asks for an `@`. -/
def sampleIsEmail (s : String) : Bool := s.toList.contains '@'

/-- A repository whose store works: `Create` assigns id 1, `GetByID` finds
nothing. -/
def sampleRepo : OrcamentoRepository :=
  { Create := fun o => .ok { o with ID := 1 }, GetByID := fun _ => .error .recordNotFound }

/-- A repository whose store is down. -/
def brokenRepo : OrcamentoRepository :=
  { Create := fun _ => .error (.other "connection refused"),
    GetByID := fun _ => .error (.other "connection refused") }

/-- The object with `nome: "Ana"`, `telefone: "111"` and the members given. -/
def anaDoc (extra : List (String × JValue)) : Option JValue :=
  some (.obj ([("nome", .str "Ana"), ("telefone", .str "111")] ++ extra))

/-- A body that was read whole, with the document `doc`. -/
def bodyOf (doc : Option JValue) : Except String RequestBody := .ok ⟨"(body)", doc⟩

/-! ## Lemmas on binding -/

theorem equalFold_excl {k a b : String} (h : equalFold k a = true)
    (hab : foldName a ≠ foldName b) : equalFold k b = false := by
  unfold equalFold at *
  rw [beq_iff_eq] at h
  rw [h]
  exact beq_eq_false_iff_ne.mpr hab

theorem map_eq_ok {ε α β : Type} {f : α → β} {x : Except ε α} {y : β}
    (h : x.map f = .ok y) : ∃ a, x = .ok a ∧ f a = y := by
  cases x with
  | error e => simp [Except.map] at h
  | ok a => exact ⟨a, rfl, by simpa [Except.map] using h⟩

theorem storeString_ok {field old : String} {v : JValue} {s : String}
    (h : storeString field old v = .ok s) :
    s = if v.isNull then old else v.text := by
  cases v <;> simp [storeString, JValue.isNull, JValue.text] at h ⊢ <;> exact h.symm

theorem storeInt_ok {field : String} {old : Int} {v : JValue} {i : Int}
    (h : storeInt field old v = .ok i) :
    i = if v.isNull then old else v.integer := by
  rcases v with _ | _ | n | _ | _ | _
  · simp [storeInt, JValue.isNull] at h ⊢; exact h.symm
  · simp [storeInt] at h
  · rcases n with j | _
    · simp only [storeInt] at h
      split_ifs at h
      · simp [JValue.isNull, JValue.integer] at h ⊢; exact h.symm
    · simp [storeInt] at h
  · simp [storeInt] at h
  · simp [storeInt] at h
  · simp [storeInt] at h

theorem setField_Nome {r r1 : CreateOrcamentoRequest} {k : String} {v : JValue}
    (h : setField r k v = .ok r1) :
    r1.Nome = if equalFold k "nome" && !v.isNull then v.text else r.Nome := by
  unfold setField at h
  by_cases hF : equalFold k "nome" = true
  ·

    simp only [hF, if_true, Bool.false_eq_true, if_false] at h
    obtain ⟨s, hs, rfl⟩ := map_eq_ok h
    have hs1 := storeString_ok hs
    subst hs1
    cases v <;> simp [hF, JValue.isNull]
  · split_ifs at h
    all_goals first
      | (obtain ⟨a, _, rfl⟩ := map_eq_ok h; simp [hF])
      | (cases h; simp [hF])

theorem setField_Email {r r1 : CreateOrcamentoRequest} {k : String} {v : JValue}
    (h : setField r k v = .ok r1) :
    r1.Email = if equalFold k "email" && !v.isNull then v.text else r.Email := by
  unfold setField at h
  by_cases hF : equalFold k "email" = true
  ·
    have e0 : equalFold k "nome" = false := equalFold_excl hF (by decide)
    simp only [e0, hF, if_true, Bool.false_eq_true, if_false] at h
    obtain ⟨s, hs, rfl⟩ := map_eq_ok h
    have hs1 := storeString_ok hs
    subst hs1
    cases v <;> simp [hF, JValue.isNull]
  · split_ifs at h
    all_goals first
      | (obtain ⟨a, _, rfl⟩ := map_eq_ok h; simp [hF])
      | (cases h; simp [hF])

theorem setField_Telefone {r r1 : CreateOrcamentoRequest} {k : String} {v : JValue}
    (h : setField r k v = .ok r1) :
    r1.Telefone = if equalFold k "telefone" && !v.isNull then v.text else r.Telefone := by
  unfold setField at h
  by_cases hF : equalFold k "telefone" = true
  ·
    have e0 : equalFold k "nome" = false := equalFold_excl hF (by decide)
    have e1 : equalFold k "email" = false := equalFold_excl hF (by decide)
    simp only [e0, e1, hF, if_true, Bool.false_eq_true, if_false] at h
    obtain ⟨s, hs, rfl⟩ := map_eq_ok h
    have hs1 := storeString_ok hs
    subst hs1
    cases v <;> simp [hF, JValue.isNull]
  · split_ifs at h
    all_goals first
      | (obtain ⟨a, _, rfl⟩ := map_eq_ok h; simp [hF])
      | (cases h; simp [hF])

theorem setField_QuantidadePecas {r r1 : CreateOrcamentoRequest} {k : String} {v : JValue}
    (h : setField r k v = .ok r1) :
    r1.QuantidadePecas = if equalFold k "quantidade_pecas" && !v.isNull then v.integer else r.QuantidadePecas := by
  unfold setField at h
  by_cases hF : equalFold k "quantidade_pecas" = true
  ·
    have e0 : equalFold k "nome" = false := equalFold_excl hF (by decide)
    have e1 : equalFold k "email" = false := equalFold_excl hF (by decide)
    have e2 : equalFold k "telefone" = false := equalFold_excl hF (by decide)
    simp only [e0, e1, e2, hF, if_true, Bool.false_eq_true, if_false] at h
    obtain ⟨s, hs, rfl⟩ := map_eq_ok h
    have hs1 := storeInt_ok hs
    subst hs1
    cases v <;> simp [hF, JValue.isNull]
  · split_ifs at h
    all_goals first
      | (obtain ⟨a, _, rfl⟩ := map_eq_ok h; simp [hF])
      | (cases h; simp [hF])

theorem setField_QuantidadePecasAlt {r r1 : CreateOrcamentoRequest} {k : String} {v : JValue}
    (h : setField r k v = .ok r1) :
    r1.QuantidadePecasAlt = if equalFold k "quantidadePecas" && !v.isNull then v.integer else r.QuantidadePecasAlt := by
  unfold setField at h
  by_cases hF : equalFold k "quantidadePecas" = true
  ·
    have e0 : equalFold k "nome" = false := equalFold_excl hF (by decide)
    have e1 : equalFold k "email" = false := equalFold_excl hF (by decide)
    have e2 : equalFold k "telefone" = false := equalFold_excl hF (by decide)
    have e3 : equalFold k "quantidade_pecas" = false := equalFold_excl hF (by decide)
    simp only [e0, e1, e2, e3, hF, if_true, Bool.false_eq_true, if_false] at h
    obtain ⟨s, hs, rfl⟩ := map_eq_ok h
    have hs1 := storeInt_ok hs
    subst hs1
    cases v <;> simp [hF, JValue.isNull]
  · split_ifs at h
    all_goals first
      | (obtain ⟨a, _, rfl⟩ := map_eq_ok h; simp [hF])
      | (cases h; simp [hF])

theorem decodeMembers_cons {r r2 : CreateOrcamentoRequest} {k : String} {v : JValue}
    {rest : List (String × JValue)} (h : decodeMembers r ((k, v) :: rest) = .ok r2) :
    ∃ r1, setField r k v = .ok r1 ∧ decodeMembers r1 rest = .ok r2 := by
  simp only [decodeMembers] at h
  cases hs : setField r k v with
  | error e => rw [hs] at h; simp at h
  | ok r1 => rw [hs] at h; exact ⟨r1, rfl, h⟩

/-- What decoding leaves in a field that `null` does not touch is what the last
non-null member naming the field stores. -/
theorem decodeMembers_field {α : Type} (get : CreateOrcamentoRequest → α) (name : String)
    (val : JValue → α)
    (hstep : ∀ (r r1 : CreateOrcamentoRequest) (k : String) (v : JValue),
      setField r k v = .ok r1 →
        get r1 = if equalFold k name && !v.isNull then val v else get r)
    (ms : List (String × JValue)) (r r2 : CreateOrcamentoRequest)
    (h : decodeMembers r ms = .ok r2) :
    get r2 = (match lastNonNull name ms with | some v => val v | none => get r) := by
  induction ms generalizing r with
  | nil =>
    simp only [decodeMembers, Except.ok.injEq] at h
    subst h
    simp [lastNonNull]
  | cons kv rest ih =>
    obtain ⟨k, v⟩ := kv
    obtain ⟨r1, hs, hrest⟩ := decodeMembers_cons h
    rw [ih r1 hrest, hstep r r1 k v hs]
    simp only [lastNonNull]
    cases lastNonNull name rest with
    | some x => rfl
    | none =>
      by_cases hk : (equalFold k name && !v.isNull) = true
      · simp [hk]
      · simp [hk]

theorem decodeMembers_Nome {ms : List (String × JValue)} {r r2 : CreateOrcamentoRequest}
    (h : decodeMembers r ms = .ok r2) : r2.Nome = strFrom r.Nome "nome" ms :=
  decodeMembers_field (fun q => q.Nome) "nome" JValue.text
    (fun _ _ _ _ hs => setField_Nome hs) ms r r2 h

theorem decodeMembers_Email {ms : List (String × JValue)} {r r2 : CreateOrcamentoRequest}
    (h : decodeMembers r ms = .ok r2) : r2.Email = strFrom r.Email "email" ms :=
  decodeMembers_field (fun q => q.Email) "email" JValue.text
    (fun _ _ _ _ hs => setField_Email hs) ms r r2 h

theorem decodeMembers_Telefone {ms : List (String × JValue)} {r r2 : CreateOrcamentoRequest}
    (h : decodeMembers r ms = .ok r2) : r2.Telefone = strFrom r.Telefone "telefone" ms :=
  decodeMembers_field (fun q => q.Telefone) "telefone" JValue.text
    (fun _ _ _ _ hs => setField_Telefone hs) ms r r2 h

theorem decodeMembers_QuantidadePecas {ms : List (String × JValue)}
    {r r2 : CreateOrcamentoRequest} (h : decodeMembers r ms = .ok r2) :
    r2.QuantidadePecas = intFrom r.QuantidadePecas "quantidade_pecas" ms :=
  decodeMembers_field (fun q => q.QuantidadePecas) "quantidade_pecas" JValue.integer
    (fun _ _ _ _ hs => setField_QuantidadePecas hs) ms r r2 h

theorem decodeMembers_QuantidadePecasAlt {ms : List (String × JValue)}
    {r r2 : CreateOrcamentoRequest} (h : decodeMembers r ms = .ok r2) :
    r2.QuantidadePecasAlt = intFrom r.QuantidadePecasAlt "quantidadePecas" ms :=
  decodeMembers_field (fun q => q.QuantidadePecasAlt) "quantidadePecas" JValue.integer
    (fun _ _ _ _ hs => setField_QuantidadePecasAlt hs) ms r r2 h

/-- The rules of `validateStruct`, spelled out. -/
theorem validateStruct_eq_nil (isEmail : String → Bool) (r : CreateOrcamentoRequest) :
    validateStruct isEmail r = [] ↔
      r.Nome ≠ "" ∧ (r.Email = "" ∨ isEmail r.Email = true) ∧ r.Telefone ≠ "" ∧
      (r.QuantidadePecas = 0 ∨ 1 ≤ r.QuantidadePecas) ∧
      (r.QuantidadePecasAlt = 0 ∨ 1 ≤ r.QuantidadePecasAlt) := by
  unfold validateStruct
  simp only [List.append_eq_nil, ite_eq_right_iff, List.cons_ne_nil, imp_false]
  constructor
  · rintro ⟨⟨⟨⟨h1, h2⟩, h3⟩, h4⟩, h5⟩
    refine ⟨h1, ?_, h3, ?_, ?_⟩
    · by_cases he : r.Email = ""
      · exact Or.inl he
      · right
        cases hv : isEmail r.Email
        · exact absurd ⟨he, hv⟩ h2
        · rfl
    · by_cases hq : r.QuantidadePecas = 0
      · exact Or.inl hq
      · right
        by_contra hlt
        exact h4 ⟨hq, by omega⟩
    · by_cases hq : r.QuantidadePecasAlt = 0
      · exact Or.inl hq
      · right
        by_contra hlt
        exact h5 ⟨hq, by omega⟩
  · rintro ⟨h1, h2, h3, h4, h5⟩
    refine ⟨⟨⟨⟨h1, ?_⟩, h3⟩, ?_⟩, ?_⟩
    · rintro ⟨he, hv⟩
      rcases h2 with h2 | h2
      · exact he h2
      · rw [h2] at hv; exact Bool.noConfusion hv
    · rintro ⟨hq, hlt⟩; omega
    · rintro ⟨hq, hlt⟩; omega

theorem ShouldBindJSON_ok {isEmail : String → Bool} {doc : Option JValue}
    {req : CreateOrcamentoRequest} :
    ShouldBindJSON isEmail doc = .ok req ↔
      decodeJSON doc = .ok req ∧ validateStruct isEmail req = [] := by
  unfold ShouldBindJSON
  cases hd : decodeJSON doc with
  | error e => simp
  | ok r =>
    dsimp only
    cases hv : validateStruct isEmail r with
    | nil =>
      dsimp only
      constructor
      · intro h
        cases h
        exact ⟨rfl, hv⟩
      · rintro ⟨h, _⟩
        exact h
    | cons f fs =>
      dsimp only
      constructor
      · intro h
        cases h
      · rintro ⟨h, h2⟩
        cases h
        rw [hv] at h2
        cases h2

theorem decodeJSON_some_ok {v : JValue} {req : CreateOrcamentoRequest} :
    decodeJSON (some v) = .ok req ↔ v.depth ≤ maxNestingDepth ∧ decodeValue v = .ok req := by
  unfold decodeJSON
  by_cases hdep : maxNestingDepth < v.depth
  · simp only [hdep, if_true]
    constructor
    · intro h; cases h
    · rintro ⟨h, _⟩; omega
  · simp only [hdep, if_false]
    constructor
    · intro h; exact ⟨by omega, h⟩
    · rintro ⟨_, h⟩; exact h

/-- A body that binds is an object within the nesting limit, and its members
decode to the request. -/
theorem ShouldBindJSON_obj {isEmail : String → Bool} {doc : Option JValue}
    {req : CreateOrcamentoRequest} (h : ShouldBindJSON isEmail doc = .ok req) :
    ∃ ms, doc = some (.obj ms) ∧ (JValue.obj ms).depth ≤ maxNestingDepth ∧
      decodeMembers {} ms = .ok req := by
  obtain ⟨hd, hv⟩ := ShouldBindJSON_ok.mp h
  have hn := ((validateStruct_eq_nil isEmail req).mp hv).1
  rcases doc with _ | v
  · simp [decodeJSON] at hd
  · obtain ⟨hdep, hd⟩ := decodeJSON_some_ok.mp hd
    rcases v with _ | _ | _ | _ | _ | ms
    · simp only [decodeValue, Except.ok.injEq] at hd
      subst hd
      exact absurd rfl hn
    · simp [decodeValue] at hd
    · simp [decodeValue] at hd
    · simp [decodeValue] at hd
    · simp [decodeValue] at hd
    · exact ⟨ms, rfl, hdep, by simpa [decodeValue] using hd⟩

/-- The fields of a decoded request are what the body gives for them. -/
theorem decodeJSON_fields {doc : Option JValue} {req : CreateOrcamentoRequest}
    (h : decodeJSON doc = .ok req) :
    req.Nome = strMember "nome" doc ∧ req.Email = strMember "email" doc ∧
      req.Telefone = strMember "telefone" doc ∧
      req.QuantidadePecas = intMember "quantidade_pecas" doc ∧
      req.QuantidadePecasAlt = intMember "quantidadePecas" doc := by
  rcases doc with _ | v
  · simp [decodeJSON] at h
  · obtain ⟨_, h⟩ := decodeJSON_some_ok.mp h
    rcases v with _ | _ | _ | _ | _ | ms
    · simp only [decodeValue, Except.ok.injEq] at h
      subst h
      simp [strMember, intMember]
    · simp [decodeValue] at h
    · simp [decodeValue] at h
    · simp [decodeValue] at h
    · simp [decodeValue] at h
    · simp only [decodeValue] at h
      exact ⟨decodeMembers_Nome h, decodeMembers_Email h, decodeMembers_Telefone h,
        decodeMembers_QuantidadePecas h, decodeMembers_QuantidadePecasAlt h⟩

/-! ### The `anexo` member -/

theorem setField_anexo {r : CreateOrcamentoRequest} {k : String} {v : JValue}
    (hk : equalFold k "anexo" = true) :
    setField r k v = if v.storable then .ok (withAnexo v r) else .error (.unmarshalType "anexo") := by
  have e0 : equalFold k "nome" = false := equalFold_excl hk (by decide)
  have e1 : equalFold k "email" = false := equalFold_excl hk (by decide)
  have e2 : equalFold k "telefone" = false := equalFold_excl hk (by decide)
  have e3 : equalFold k "quantidade_pecas" = false := equalFold_excl hk (by decide)
  have e4 : equalFold k "quantidadePecas" = false := equalFold_excl hk (by decide)
  have e5 : equalFold k "descricao" = false := equalFold_excl hk (by decide)
  unfold setField
  simp only [e0, e1, e2, e3, e4, e5, hk, if_true, Bool.false_eq_true, if_false, storeAny]
  split_ifs <;> rfl

theorem setField_withAnexo {r : CreateOrcamentoRequest} {k : String} {v : JValue}
    (a : JValue) (hk : equalFold k "anexo" = false) :
    setField (withAnexo a r) k v = (setField r k v).map (withAnexo a) := by
  unfold setField
  simp only [hk, Bool.false_eq_true, if_false]
  split_ifs
  · show (storeString "nome" r.Nome v).map _ = _
    cases storeString "nome" r.Nome v <;> rfl
  · show (storeString "email" r.Email v).map _ = _
    cases storeString "email" r.Email v <;> rfl
  · show (storeString "telefone" r.Telefone v).map _ = _
    cases storeString "telefone" r.Telefone v <;> rfl
  · show (storeInt "quantidade_pecas" r.QuantidadePecas v).map _ = _
    cases storeInt "quantidade_pecas" r.QuantidadePecas v <;> rfl
  · show (storeInt "quantidadePecas" r.QuantidadePecasAlt v).map _ = _
    cases storeInt "quantidadePecas" r.QuantidadePecasAlt v <;> rfl
  · show (storeString "descricao" r.Descricao v).map _ = _
    cases storeString "descricao" r.Descricao v <;> rfl
  · show (storeBool "fileUploadEnabled" r.FileUploadEnabled v).map _ = _
    cases storeBool "fileUploadEnabled" r.FileUploadEnabled v <;> rfl
  · rfl

theorem setField_Anexo_of_ne {r r1 : CreateOrcamentoRequest} {k : String} {v : JValue}
    (hk : equalFold k "anexo" = false) (h : setField r k v = .ok r1) :
    r1.Anexo = r.Anexo := by
  unfold setField at h
  simp only [hk, Bool.false_eq_true, if_false] at h
  split_ifs at h
  all_goals first
    | (obtain ⟨a, _, rfl⟩ := map_eq_ok h; rfl)
    | (cases h; rfl)

theorem decodeMembers_withAnexo (a : JValue) (ms : List (String × JValue))
    (r : CreateOrcamentoRequest) (hms : ∀ kv ∈ ms, equalFold kv.1 "anexo" = false) :
    decodeMembers (withAnexo a r) ms = (decodeMembers r ms).map (withAnexo a) := by
  induction ms generalizing r with
  | nil => rfl
  | cons kv rest ih =>
    obtain ⟨k, v⟩ := kv
    have hk : equalFold k "anexo" = false := hms (k, v) (List.mem_cons_self _ _)
    have hrest : ∀ kv ∈ rest, equalFold kv.1 "anexo" = false :=
      fun kv hkv => hms kv (List.mem_cons_of_mem _ hkv)
    simp only [decodeMembers, setField_withAnexo a hk]
    cases setField r k v with
    | error e => rfl
    | ok r1 => exact ih r1 hrest

theorem dropField_no_key (name : String) (ms : List (String × JValue)) :
    ∀ kv ∈ dropField name ms, equalFold kv.1 name = false := by
  intro kv hkv
  have := (List.mem_filter.mp hkv).2
  simpa using this

/-- Decoding a payload whose `anexo` members are all storable is decoding the
payload without them and then setting `Anexo` to the last of them. -/
theorem decodeMembers_dropAnexo (ms : List (String × JValue)) (r : CreateOrcamentoRequest)
    (hst : ∀ kv ∈ ms, equalFold kv.1 "anexo" = true → kv.2.storable = true) :
    decodeMembers r ms =
      (decodeMembers r (dropField "anexo" ms)).map
        (withAnexo ((lastMember "anexo" ms).getD r.Anexo)) := by
  induction ms generalizing r with
  | nil =>
    simp only [decodeMembers, dropField, List.filter_nil, lastMember, Option.getD_none]
    rfl
  | cons kv rest ih =>
    obtain ⟨k, v⟩ := kv
    have hrest : ∀ kv ∈ rest, equalFold kv.1 "anexo" = true → kv.2.storable = true :=
      fun kv hkv => hst kv (List.mem_cons_of_mem _ hkv)
    by_cases hk : equalFold k "anexo" = true
    · have hv : v.storable = true := hst (k, v) (List.mem_cons_self _ _) hk
      have hdrop : dropField "anexo" ((k, v) :: rest) = dropField "anexo" rest := by
        simp [dropField, hk]
      have hlast : (lastMember "anexo" ((k, v) :: rest)).getD r.Anexo =
          (lastMember "anexo" rest).getD v := by
        simp only [lastMember, hk, if_true]
        cases lastMember "anexo" rest <;> rfl
      rw [hdrop, hlast]
      simp only [decodeMembers, setField_anexo hk, hv, if_true]
      rw [ih (withAnexo v r) hrest,
        decodeMembers_withAnexo v _ r (dropField_no_key "anexo" rest)]
      cases decodeMembers r (dropField "anexo" rest) <;> rfl
    · have hk1 : equalFold k "anexo" = false := by simpa using hk
      have hdrop : dropField "anexo" ((k, v) :: rest) = (k, v) :: dropField "anexo" rest := by
        simp [dropField, hk1]
      have hlast : lastMember "anexo" ((k, v) :: rest) = lastMember "anexo" rest := by
        simp only [lastMember, hk1, Bool.false_eq_true, if_false]
        cases lastMember "anexo" rest <;> rfl
      rw [hdrop, hlast]
      simp only [decodeMembers]
      cases hs : setField r k v with
      | error e => rfl
      | ok r1 =>
        dsimp only
        rw [ih r1 hrest, setField_Anexo_of_ne hk1 hs]

/-- A payload binds once its `anexo` members, all storable, are put back, as
long as it stays within the nesting limit, and the bound request differs only
by its `Anexo`. -/
theorem ShouldBindJSON_dropAnexo {isEmail : String → Bool} {ms : List (String × JValue)}
    {req0 : CreateOrcamentoRequest}
    (h : ShouldBindJSON isEmail (some (.obj (dropField "anexo" ms))) = .ok req0)
    (hdep : (JValue.obj ms).depth ≤ maxNestingDepth)
    (hst : ∀ kv ∈ ms, equalFold kv.1 "anexo" = true → kv.2.storable = true) :
    ShouldBindJSON isEmail (some (.obj ms)) =
      .ok (withAnexo ((lastMember "anexo" ms).getD .null) req0) := by
  obtain ⟨hd, hv⟩ := ShouldBindJSON_ok.mp h
  obtain ⟨_, hd⟩ := decodeJSON_some_ok.mp hd
  apply ShouldBindJSON_ok.mpr
  refine ⟨decodeJSON_some_ok.mpr ⟨hdep, ?_⟩, hv⟩
  simp only [decodeValue] at hd ⊢
  rw [decodeMembers_dropAnexo ms {} hst, hd]
  rfl

/-- A member that names `anexo` and is not storable makes decoding fail. -/
theorem decodeMembers_unstorable (ms : List (String × JValue)) (r : CreateOrcamentoRequest)
    (hbad : ∃ kv ∈ ms, equalFold kv.1 "anexo" = true ∧ kv.2.storable = false) :
    ∃ e, decodeMembers r ms = .error e := by
  induction ms generalizing r with
  | nil =>
    obtain ⟨kv, hkv, _⟩ := hbad
    cases hkv
  | cons kv rest ih =>
    obtain ⟨k, v⟩ := kv
    simp only [decodeMembers]
    cases hs : setField r k v with
    | error e => exact ⟨e, rfl⟩
    | ok r1 =>
      dsimp only
      apply ih
      obtain ⟨kv1, hkv1, hk1, hv1⟩ := hbad
      rcases List.mem_cons.mp hkv1 with heq | hin
      · exfalso
        subst heq
        rw [setField_anexo hk1] at hs
        simp only [hv1, Bool.false_eq_true, if_false] at hs
        cases hs
      · exact ⟨kv1, hin, hk1, hv1⟩

/-- A body nested beyond the limit, or with an `anexo` member that is not
storable, does not bind. -/
theorem ShouldBindJSON_error_of_undecodable (isEmail : String → Bool)
    {ms : List (String × JValue)}
    (h : maxNestingDepth < (JValue.obj ms).depth ∨
      ∃ kv ∈ ms, equalFold kv.1 "anexo" = true ∧ kv.2.storable = false) :
    ∃ e, ShouldBindJSON isEmail (some (.obj ms)) = .error e := by
  cases hb : ShouldBindJSON isEmail (some (.obj ms)) with
  | error e => exact ⟨e, rfl⟩
  | ok req =>
    exfalso
    obtain ⟨hdep, hd⟩ := decodeJSON_some_ok.mp (ShouldBindJSON_ok.mp hb).1
    rcases h with h | h
    · omega
    · obtain ⟨e, he⟩ := decodeMembers_unstorable ms {} h
      simp only [decodeValue] at hd
      rw [he] at hd
      cases hd

/-- A body that gives a negative quantity does not bind. -/
theorem ShouldBindJSON_error_of_negative (isEmail : String → Bool) {doc : Option JValue}
    (h : intMember "quantidade_pecas" doc < 0 ∨ intMember "quantidadePecas" doc < 0) :
    ∃ e, ShouldBindJSON isEmail doc = .error e := by
  cases hb : ShouldBindJSON isEmail doc with
  | error e => exact ⟨e, rfl⟩
  | ok req =>
    exfalso
    obtain ⟨hd, hv⟩ := ShouldBindJSON_ok.mp hb
    obtain ⟨_, _, _, hq, hqa⟩ := (validateStruct_eq_nil isEmail req).mp hv
    obtain ⟨_, _, _, e4, e5⟩ := decodeJSON_fields hd
    rw [e4] at hq
    rw [e5] at hqa
    rcases h with h | h
    · omega
    · omega

/-! ## Lemmas on the handlers -/

theorem CreateOrcamento_bind_error {isEmail : String → Bool} {repo : OrcamentoRepository}
    {b : RequestBody} {e : BindError} (h : ShouldBindJSON isEmail b.doc = .error e) :
    CreateOrcamento isEmail repo (.ok b) = invalidOutcome e.Error b.raw := by
  simp only [CreateOrcamento, h, invalidOutcome]

theorem CreateOrcamento_bound {isEmail : String → Bool} {repo : OrcamentoRepository}
    {b : RequestBody} {req : CreateOrcamentoRequest}
    (h : ShouldBindJSON isEmail b.doc = .ok req) :
    CreateOrcamento isEmail repo (.ok b) =
      if 0 < req.QuantidadePecas then persist repo (entityOf req req.QuantidadePecas)
      else if 0 < req.QuantidadePecasAlt then
        persist repo (entityOf req req.QuantidadePecasAlt)
      else missingOutcome := by
  simp only [CreateOrcamento, h, gt_iff_lt]
  by_cases h1 : 0 < req.QuantidadePecas
  · simp only [h1, if_true, persist, entityOf]
    cases req.Anexo <;> rfl
  · by_cases h2 : 0 < req.QuantidadePecasAlt
    · simp only [h1, h2, if_true, if_false, persist, entityOf]
      cases req.Anexo <;> rfl
    · simp only [h1, h2, if_false, missingOutcome]

theorem normalize_bind_error {isEmail : String → Bool} {doc : Option JValue} {e : BindError}
    (h : ShouldBindJSON isEmail doc = .error e) :
    normalize isEmail doc = .error (.InvalidPayload e.Error) := by
  simp only [normalize, h]

theorem normalize_bound {isEmail : String → Bool} {doc : Option JValue}
    {req : CreateOrcamentoRequest} (h : ShouldBindJSON isEmail doc = .ok req) :
    normalize isEmail doc =
      if 0 < req.QuantidadePecas then .ok (entityOf req req.QuantidadePecas)
      else if 0 < req.QuantidadePecasAlt then .ok (entityOf req req.QuantidadePecasAlt)
      else .error .MissingQuantity := by
  simp only [normalize, h, gt_iff_lt]
  by_cases h1 : 0 < req.QuantidadePecas
  · simp only [h1, if_true, entityOf]
    cases req.Anexo <;> rfl
  · by_cases h2 : 0 < req.QuantidadePecasAlt
    · simp only [h1, h2, if_true, if_false, entityOf]
      cases req.Anexo <;> rfl
    · simp only [h1, h2, if_false]

/-- The handler is its normalisation followed by the call of `Create`. -/
theorem CreateOrcamento_normalize (isEmail : String → Bool) (repo : OrcamentoRepository)
    (b : RequestBody) :
    CreateOrcamento isEmail repo (.ok b) =
      match normalize isEmail b.doc with
      | .error (.InvalidPayload d) => invalidOutcome d b.raw
      | .error .MissingQuantity => missingOutcome
      | .ok o => persist repo o := by
  cases hb : ShouldBindJSON isEmail b.doc with
  | error e => rw [CreateOrcamento_bind_error hb, normalize_bind_error hb]
  | ok req =>
    rw [CreateOrcamento_bound hb, normalize_bound hb]
    split_ifs <;> rfl

/-- A body whose `nome` or `telefone` is missing or empty does not bind. -/
theorem ShouldBindJSON_error_of_empty (isEmail : String → Bool) {doc : Option JValue}
    (h : strMember "nome" doc = "" ∨ strMember "telefone" doc = "") :
    ∃ e, ShouldBindJSON isEmail doc = .error e := by
  cases hb : ShouldBindJSON isEmail doc with
  | error e => exact ⟨e, rfl⟩
  | ok req =>
    exfalso
    obtain ⟨hd, hv⟩ := ShouldBindJSON_ok.mp hb
    obtain ⟨hn, _, ht, _, _⟩ := (validateStruct_eq_nil isEmail req).mp hv
    obtain ⟨e1, _, e3, _, _⟩ := decodeJSON_fields hd
    rcases h with h | h
    · exact hn (e1.trans h)
    · exact ht (e3.trans h)

theorem persist_created (repo : OrcamentoRepository) (o : Orcamento) :
    (persist repo o).created = [o] := by
  unfold persist
  cases repo.Create o <;> rfl

/-! ### `ParseUint` -/

theorem le_decimalFrom (n : Nat) (cs : List Char) : n ≤ decimalFrom n cs := by
  induction cs generalizing n with
  | nil => exact Nat.le_refl _
  | cons c cs ih =>
    have h := ih (n * 10 + (c.toNat - 48))
    simp only [decimalFrom, List.foldl_cons] at h ⊢
    omega

/-- The digit loop, started below `2^32`, succeeds exactly on digit sequences
whose value stays below `2^32`, and returns that value. -/
theorem parseUintLoop_iff (cs : List Char) (n m : Nat) (hn : n < 2 ^ 32) :
    parseUintLoop (2 ^ 32 - 1) n cs = .ok m ↔
      (∀ c ∈ cs, isDigit c = true) ∧ decimalFrom n cs = m ∧ m < 2 ^ 32 := by
  induction cs generalizing n with
  | nil =>
    simp only [parseUintLoop, Except.ok.injEq, List.not_mem_nil, false_imp_iff, imp_true_iff,
      true_and, decimalFrom, List.foldl_nil]
    constructor
    · intro h; subst h; exact ⟨rfl, hn⟩
    · intro h; exact h.1
  | cons c cs ih =>
    simp only [parseUintLoop, List.mem_cons, forall_eq_or_imp]
    by_cases hd : 48 ≤ c.toNat ∧ c.toNat ≤ 57
    · have hdig : isDigit c = true := by simp [isDigit, hd.1, hd.2]
      have hcut : ¬ n ≥ (2 ^ 64 - 1) / 10 + 1 := by
        norm_num at hn ⊢
        omega
      have hmod : (n * 10 + (c.toNat - 48)) % 2 ^ 64 = n * 10 + (c.toNat - 48) := by
        apply Nat.mod_eq_of_lt
        norm_num at hn ⊢
        omega
      have hstep : decimalFrom n (c :: cs) = decimalFrom (n * 10 + (c.toNat - 48)) cs := rfl
      simp only [hd, and_self, if_true, hcut, if_false, hmod, hdig, true_and, hstep]
      by_cases hbig : n * 10 + (c.toNat - 48) > 2 ^ 32 - 1
      · have hnot : ¬ n * 10 + (c.toNat - 48) < n * 10 := by omega
        simp only [hnot, hbig, false_or, if_true]
        constructor
        · intro h; cases h
        · rintro ⟨_, hv, hm⟩
          have := le_decimalFrom (n * 10 + (c.toNat - 48)) cs
          norm_num at hbig hm
          omega
      · have hnot : ¬ n * 10 + (c.toNat - 48) < n * 10 := by omega
        simp only [hnot, hbig, false_or, if_false]
        apply ih
        norm_num at hbig ⊢
        omega
    · have hdig : isDigit c = false := by
        simp only [isDigit, Bool.and_eq_false_iff, decide_eq_false_iff_not]
        by_cases h1 : 48 ≤ c.toNat
        · right; intro h2; exact hd ⟨h1, h2⟩
        · left; exact h1
      simp only [hd, if_false, hdig, Bool.false_eq_true, false_and]
      constructor
      · intro h; cases h
      · intro h; exact h.elim

theorem ParseUint_iff (s : String) (m : Nat) :
    ParseUint s 32 = .ok m ↔ wellFormedUint32 s ∧ decimalValue s = m := by
  unfold ParseUint wellFormedUint32 decimalValue
  by_cases hs : s = ""
  · simp [hs]
  · simp only [hs, if_false, ne_eq, not_false_eq_true, true_and]
    rw [parseUintLoop_iff s.toList 0 m (by norm_num)]
    constructor
    · rintro ⟨h1, h2, h3⟩
      exact ⟨⟨h1, by rw [h2]; exact h3⟩, h2⟩
    · rintro ⟨⟨h1, h3⟩, h2⟩
      exact ⟨h1, h2, by rw [← h2]; exact h3⟩

theorem ParseUint_error_iff (s : String) :
    (∃ e, ParseUint s 32 = .error e) ↔ ¬ wellFormedUint32 s := by
  constructor
  · rintro ⟨e, he⟩ hw
    have := (ParseUint_iff s (decimalValue s)).mpr ⟨hw, rfl⟩
    rw [he] at this
    cases this
  · intro hw
    cases hp : ParseUint s 32 with
    | error e => exact ⟨e, rfl⟩
    | ok m => exact absurd ((ParseUint_iff s m).mp hp).1 hw

/-! ## The claims -/

set_option exponentiation.threshold 2000

/-- C1: whenever `CreateOrcamento` calls the repository's `Create`, the entity it
passes has `QuantidadePecas ≥ 1`, a non-empty `Nome` and a non-empty `Telefone`. -/
theorem C1_created_entity_invariant (isEmail : String → Bool) (repo : OrcamentoRepository)
    (body : Except String RequestBody) (o : Orcamento)
    (h : o ∈ (CreateOrcamento isEmail repo body).created) :
    1 ≤ o.QuantidadePecas ∧ o.Nome ≠ "" ∧ o.Telefone ≠ "" := by
  rcases body with e | b
  · simp [CreateOrcamento] at h
  · cases hb : ShouldBindJSON isEmail b.doc with
    | error e =>
      rw [CreateOrcamento_bind_error hb] at h
      simp [invalidOutcome] at h
    | ok req =>
      rw [CreateOrcamento_bound hb] at h
      obtain ⟨hn, _, ht, _, _⟩ :=
        (validateStruct_eq_nil isEmail req).mp (ShouldBindJSON_ok.mp hb).2
      split_ifs at h with h1 h2
      · rw [persist_created, List.mem_singleton] at h
        subst h
        exact ⟨by simp only [entityOf]; omega, hn, ht⟩
      · rw [persist_created, List.mem_singleton] at h
        subst h
        exact ⟨by simp only [entityOf]; omega, hn, ht⟩
      · simp [missingOutcome] at h

/-- C1 at the body `nome: "Ana", telefone: "111", quantidade_pecas: 2`. -/
theorem C1_created_entity_invariant_witness :
    ({ Nome := "Ana", Telefone := "111", QuantidadePecas := 2 } : Orcamento) ∈
        (CreateOrcamento sampleIsEmail sampleRepo
          (bodyOf (anaDoc [("quantidade_pecas", .num (.int 2))]))).created ∧
      ((1 : Int) ≤ 2 ∧ "Ana" ≠ "" ∧ "111" ≠ "") :=
  ⟨by decide,
   C1_created_entity_invariant sampleIsEmail sampleRepo
     (bodyOf (anaDoc [("quantidade_pecas", .num (.int 2))]))
     { Nome := "Ana", Telefone := "111", QuantidadePecas := 2 } (by decide)⟩

/-- C2: for a payload that passes binding, the bound quantities are the ones the
payload gives, and the entity handed to `Create` carries `quantidade_pecas` when
it is positive and otherwise `quantidadePecas` when that one is positive. -/
theorem C2_quantity_resolution (isEmail : String → Bool) (repo : OrcamentoRepository)
    (b : RequestBody) (req : CreateOrcamentoRequest)
    (h : ShouldBindJSON isEmail b.doc = .ok req) :
    req.QuantidadePecas = intMember "quantidade_pecas" b.doc ∧
    req.QuantidadePecasAlt = intMember "quantidadePecas" b.doc ∧
    (0 < intMember "quantidade_pecas" b.doc →
      ∃ o, (CreateOrcamento isEmail repo (.ok b)).created = [o] ∧
        normalize isEmail b.doc = .ok o ∧
        o.QuantidadePecas = intMember "quantidade_pecas" b.doc) ∧
    (intMember "quantidade_pecas" b.doc ≤ 0 → 0 < intMember "quantidadePecas" b.doc →
      ∃ o, (CreateOrcamento isEmail repo (.ok b)).created = [o] ∧
        normalize isEmail b.doc = .ok o ∧
        o.QuantidadePecas = intMember "quantidadePecas" b.doc) := by
  obtain ⟨_, _, _, hq, hqa⟩ := decodeJSON_fields (ShouldBindJSON_ok.mp h).1
  refine ⟨hq, hqa, ?_, ?_⟩
  · intro hpos
    rw [← hq] at hpos ⊢
    refine ⟨entityOf req req.QuantidadePecas, ?_, ?_, rfl⟩
    · rw [CreateOrcamento_bound h, if_pos hpos, persist_created]
    · rw [normalize_bound h, if_pos hpos]
  · intro hle hpos
    rw [← hq] at hle
    rw [← hqa] at hpos ⊢
    have hnot : ¬ 0 < req.QuantidadePecas := by omega
    refine ⟨entityOf req req.QuantidadePecasAlt, ?_, ?_, rfl⟩
    · rw [CreateOrcamento_bound h, if_neg hnot, if_pos hpos, persist_created]
    · rw [normalize_bound h, if_neg hnot, if_pos hpos]

/-- C2 at the body `nome: "Ana", telefone: "111", quantidadePecas: 3`. -/
theorem C2_quantity_resolution_witness :
    intMember "quantidade_pecas" (anaDoc [("quantidadePecas", .num (.int 3))]) = 0 ∧
    intMember "quantidadePecas" (anaDoc [("quantidadePecas", .num (.int 3))]) = 3 ∧
    ∃ o, (CreateOrcamento sampleIsEmail sampleRepo
        (.ok ⟨"(body)", anaDoc [("quantidadePecas", .num (.int 3))]⟩)).created = [o] ∧
      o.QuantidadePecas = 3 := by
  have h := C2_quantity_resolution sampleIsEmail sampleRepo
    ⟨"(body)", anaDoc [("quantidadePecas", .num (.int 3))]⟩
    { Nome := "Ana", Telefone := "111", QuantidadePecasAlt := 3 } (by rfl)
  refine ⟨by decide, by decide, ?_⟩
  obtain ⟨o, ho, _, hq⟩ := h.2.2.2 (by decide) (by decide)
  exact ⟨o, ho, hq.trans (by decide)⟩

/-- C3, amended: a payload that passes binding and gives no positive quantity
(each of `quantidade_pecas` and `quantidadePecas` absent, `null` or `0`) is
turned down with the missing-quantity response: 400, body `error, help`, no
`received_json`, and `Create` is not called. A payload in which either
quantity is negative never gets that response: it is turned down with the
invalid-payload response (400; `error, details, received_json, help`), and
`Create` is not called. -/
theorem C3_missing_quantity (isEmail : String → Bool) (repo : OrcamentoRepository)
    (b : RequestBody) :
    (∀ req, ShouldBindJSON isEmail b.doc = .ok req →
      intMember "quantidade_pecas" b.doc ≤ 0 → intMember "quantidadePecas" b.doc ≤ 0 →
      (CreateOrcamento isEmail repo (.ok b)).response.status = 400 ∧
      (CreateOrcamento isEmail repo (.ok b)).response.body.keys = ["error", "help"] ∧
      "received_json" ∉ (CreateOrcamento isEmail repo (.ok b)).response.body.keys ∧
      (CreateOrcamento isEmail repo (.ok b)).created = [] ∧
      normalize isEmail b.doc = .error .MissingQuantity) ∧
    (intMember "quantidade_pecas" b.doc < 0 ∨ intMember "quantidadePecas" b.doc < 0 →
      ∃ detail,
        CreateOrcamento isEmail repo (.ok b) =
          ⟨⟨400, .H [("error", .text "Invalid request data"), ("details", .text detail),
                      ("received_json", .text b.raw), ("help", .text helpInvalid)]⟩, []⟩ ∧
        normalize isEmail b.doc = .error (.InvalidPayload detail) ∧
        normalize isEmail b.doc ≠ .error .MissingQuantity) := by
  constructor
  · intro req h hq hqa
    obtain ⟨_, _, _, h1, h2⟩ := decodeJSON_fields (ShouldBindJSON_ok.mp h).1
    rw [← h1] at hq
    rw [← h2] at hqa
    have n1 : ¬ 0 < req.QuantidadePecas := by omega
    have n2 : ¬ 0 < req.QuantidadePecasAlt := by omega
    rw [CreateOrcamento_bound h, normalize_bound h, if_neg n1, if_neg n2, if_neg n1, if_neg n2]
    exact ⟨rfl, rfl, by decide, rfl, rfl⟩
  · intro hneg
    obtain ⟨e, he⟩ := ShouldBindJSON_error_of_negative isEmail hneg
    refine ⟨e.Error, ?_, normalize_bind_error he, ?_⟩
    · rw [CreateOrcamento_bind_error he]
      rfl
    · rw [normalize_bind_error he]
      simp

/-- C3 at three bodies with `nome: "Ana", telefone: "111"`: `quantidade_pecas: 0`
gets the missing-quantity response, `quantidade_pecas: -1` and
`quantidadePecas: -3` get the invalid-payload one. -/
theorem C3_missing_quantity_witness :
    (CreateOrcamento sampleIsEmail sampleRepo
      (.ok ⟨"(body)", anaDoc [("quantidade_pecas", .num (.int 0))]⟩)).response.body.keys
      = ["error", "help"] ∧
    (CreateOrcamento sampleIsEmail sampleRepo
      (.ok ⟨"(body)", anaDoc [("quantidade_pecas", .num (.int (-1)))]⟩)).response.body.keys
      = ["error", "details", "received_json", "help"] ∧
    (CreateOrcamento sampleIsEmail sampleRepo
      (.ok ⟨"(body)", anaDoc [("quantidadePecas", .num (.int (-3)))]⟩)).response.body.keys
      = ["error", "details", "received_json", "help"] := by
  refine ⟨?_, ?_, ?_⟩
  · exact ((C3_missing_quantity sampleIsEmail sampleRepo
      ⟨"(body)", anaDoc [("quantidade_pecas", .num (.int 0))]⟩).1
      { Nome := "Ana", Telefone := "111" } (by rfl) (by decide) (by decide)).2.1
  · obtain ⟨d, hd, _⟩ := (C3_missing_quantity sampleIsEmail sampleRepo
      ⟨"(body)", anaDoc [("quantidade_pecas", .num (.int (-1)))]⟩).2 (Or.inl (by decide))
    rw [hd]
    rfl
  · obtain ⟨d, hd, _⟩ := (C3_missing_quantity sampleIsEmail sampleRepo
      ⟨"(body)", anaDoc [("quantidadePecas", .num (.int (-3)))]⟩).2 (Or.inr (by decide))
    rw [hd]
    rfl

/-- C3 as stated fails: with `nome: "Ana", telefone: "111"` and
`quantidade_pecas: -1` (a quantity `≤ 0`, the other one absent) the `min=1` rule
of the binding rejects the body, and with no quantity at all and
`descricao: 5` the decoder does; both get the invalid-payload response, with
its `received_json` field, whatever the email pattern and the repository. -/
theorem C3_counterexample :
    (strMember "nome" (anaDoc [("quantidade_pecas", .num (.int (-1)))]) = "Ana" ∧
     strMember "telefone" (anaDoc [("quantidade_pecas", .num (.int (-1)))]) = "111" ∧
     intMember "quantidade_pecas" (anaDoc [("quantidade_pecas", .num (.int (-1)))]) = -1 ∧
     lastMember "quantidadePecas"
       [("nome", .str "Ana"), ("telefone", .str "111"),
        ("quantidade_pecas", .num (.int (-1)))] = none ∧
     ∀ (isEmail : String → Bool) (repo : OrcamentoRepository),
       (CreateOrcamento isEmail repo
         (.ok ⟨"(body)", anaDoc [("quantidade_pecas", .num (.int (-1)))]⟩)).response.body.keys
         = ["error", "details", "received_json", "help"]) ∧
    (lastMember "quantidade_pecas"
       [("nome", .str "Ana"), ("telefone", .str "111"), ("descricao", .num (.int 5))] = none ∧
     lastMember "quantidadePecas"
       [("nome", .str "Ana"), ("telefone", .str "111"), ("descricao", .num (.int 5))] = none ∧
     ∀ (isEmail : String → Bool) (repo : OrcamentoRepository),
       (CreateOrcamento isEmail repo
         (.ok ⟨"(body)", anaDoc [("descricao", .num (.int 5))]⟩)).response.body.keys
         = ["error", "details", "received_json", "help"]) := by
  refine ⟨⟨by decide, by decide, by decide, rfl, ?_⟩, rfl, rfl, ?_⟩
  · intro isEmail repo
    rfl
  · intro isEmail repo
    rfl

/-- C4, amended: take a payload that binds with a positive quantity once its
`anexo` members are left out. If, with them, it is nested no deeper than the
decoder's limit of 10000 levels and its `anexo` members hold no number literal
outside the float64 range, the entity is created; its `Anexo` is the string
verbatim when the payload's `anexo` is a string, and empty when `anexo` is
absent or is any other value (number, object, array, boolean, `null`). If the
payload is nested deeper than the limit, or an `anexo` member holds a number
literal outside the float64 range, the decoder refuses it and the handler
answers with the invalid-payload response without calling `Create`. -/
theorem C4_attachment (isEmail : String → Bool) (repo : OrcamentoRepository) (raw : String)
    (ms : List (String × JValue)) :
    (∀ req0, ShouldBindJSON isEmail (some (.obj (dropField "anexo" ms))) = .ok req0 →
      (0 < req0.QuantidadePecas ∨ 0 < req0.QuantidadePecasAlt) →
      (JValue.obj ms).depth ≤ maxNestingDepth →
      (∀ kv ∈ ms, equalFold kv.1 "anexo" = true → kv.2.storable = true) →
      ∃ o, (CreateOrcamento isEmail repo (.ok ⟨raw, some (.obj ms)⟩)).created = [o] ∧
        normalize isEmail (some (.obj ms)) = .ok o ∧
        (∀ s, lastMember "anexo" ms = some (.str s) → o.Anexo = s) ∧
        (lastMember "anexo" ms = none → o.Anexo = "") ∧
        (∀ v, lastMember "anexo" ms = some v → (∀ s, v ≠ .str s) → o.Anexo = "")) ∧
    ((maxNestingDepth < (JValue.obj ms).depth ∨
        ∃ kv ∈ ms, equalFold kv.1 "anexo" = true ∧ kv.2.storable = false) →
      ∃ detail,
        CreateOrcamento isEmail repo (.ok ⟨raw, some (.obj ms)⟩) =
          ⟨⟨400, .H [("error", .text "Invalid request data"), ("details", .text detail),
                      ("received_json", .text raw), ("help", .text helpInvalid)]⟩, []⟩ ∧
        normalize isEmail (some (.obj ms)) = .error (.InvalidPayload detail)) := by
  constructor
  · intro req0 h hq hdep hst
    have hb := ShouldBindJSON_dropAnexo h hdep hst
    have hanexo : ∀ q,
        (entityOf (withAnexo ((lastMember "anexo" ms).getD .null) req0) q).Anexo
          = ((lastMember "anexo" ms).getD .null).text := fun _ => rfl
    have hfields : ∀ q,
        (∀ s, lastMember "anexo" ms = some (.str s) →
          (entityOf (withAnexo ((lastMember "anexo" ms).getD .null) req0) q).Anexo = s) ∧
        (lastMember "anexo" ms = none →
          (entityOf (withAnexo ((lastMember "anexo" ms).getD .null) req0) q).Anexo = "") ∧
        (∀ v, lastMember "anexo" ms = some v → (∀ s, v ≠ .str s) →
          (entityOf (withAnexo ((lastMember "anexo" ms).getD .null) req0) q).Anexo = "") := by
      intro q
      rw [hanexo]
      refine ⟨?_, ?_, ?_⟩
      · intro s hs; rw [hs]; rfl
      · intro hs; rw [hs]; rfl
      · intro v hs hv
        rw [hs]
        cases v with
        | str s => exact absurd rfl (hv s)
        | null => rfl
        | bool _ => rfl
        | num _ => rfl
        | arr _ => rfl
        | obj _ => rfl
    have hb1 : ShouldBindJSON isEmail (RequestBody.mk raw (some (.obj ms))).doc =
        .ok (withAnexo ((lastMember "anexo" ms).getD .null) req0) := hb
    rw [CreateOrcamento_bound hb1, normalize_bound hb]
    have hQ : (withAnexo ((lastMember "anexo" ms).getD .null) req0).QuantidadePecas
        = req0.QuantidadePecas := rfl
    have hQa : (withAnexo ((lastMember "anexo" ms).getD .null) req0).QuantidadePecasAlt
        = req0.QuantidadePecasAlt := rfl
    rw [hQ, hQa]
    by_cases h1 : 0 < req0.QuantidadePecas
    · rw [if_pos h1, if_pos h1, persist_created]
      exact ⟨_, rfl, rfl, hfields _⟩
    · have h2 : 0 < req0.QuantidadePecasAlt := by
        rcases hq with hq | hq
        · exact absurd hq h1
        · exact hq
      rw [if_neg h1, if_neg h1, if_pos h2, if_pos h2, persist_created]
      exact ⟨_, rfl, rfl, hfields _⟩
  · intro hbad
    obtain ⟨e, he⟩ := ShouldBindJSON_error_of_undecodable isEmail hbad
    have he1 : ShouldBindJSON isEmail (RequestBody.mk raw (some (.obj ms))).doc = .error e := he
    refine ⟨e.Error, ?_, normalize_bind_error he⟩
    rw [CreateOrcamento_bind_error he1]
    rfl

/-- C4 at the body `nome: "Ana", telefone: "111", quantidade_pecas: 2` with
`anexo: 42` (created, `Anexo` empty) and with `anexo: 1e999` (turned down). -/
theorem C4_attachment_witness :
    (lastMember "anexo"
      [("nome", .str "Ana"), ("telefone", .str "111"),
       ("quantidade_pecas", .num (.int 2)), ("anexo", .num (.int 42))]
      = some (.num (.int 42)) ∧
     ∃ o, (CreateOrcamento sampleIsEmail sampleRepo
        (.ok ⟨"(body)", some (.obj
          [("nome", .str "Ana"), ("telefone", .str "111"),
           ("quantidade_pecas", .num (.int 2)), ("anexo", .num (.int 42))])⟩)).created = [o] ∧
      o.Anexo = "") ∧
    (CreateOrcamento sampleIsEmail sampleRepo
        (.ok ⟨"(body)", some (.obj
          [("nome", .str "Ana"), ("telefone", .str "111"),
           ("quantidade_pecas", .num (.int 2)),
           ("anexo", .num (.dec 1 999))])⟩)).response.status = 400 := by
  refine ⟨⟨rfl, ?_⟩, ?_⟩
  · obtain ⟨o, ho, _, _, _, h3⟩ := (C4_attachment sampleIsEmail sampleRepo "(body)"
      [("nome", .str "Ana"), ("telefone", .str "111"),
       ("quantidade_pecas", .num (.int 2)), ("anexo", .num (.int 42))]).1
      { Nome := "Ana", Telefone := "111", QuantidadePecas := 2 } (by rfl) (Or.inl (by decide))
      (by decide)
      (by
        intro kv hkv _
        simp only [List.mem_cons, List.mem_singleton, List.not_mem_nil, or_false] at hkv
        rcases hkv with rfl | rfl | rfl | rfl <;> decide)
    exact ⟨o, ho, h3 _ rfl (fun s hs => by cases hs)⟩
  · obtain ⟨d, hd, _⟩ := (C4_attachment sampleIsEmail sampleRepo "(body)"
      [("nome", .str "Ana"), ("telefone", .str "111"),
       ("quantidade_pecas", .num (.int 2)), ("anexo", .num (.dec 1 999))]).2
      (Or.inr ⟨("anexo", .num (.dec 1 999)), by simp, by decide, by decide⟩)
    rw [hd]

/-- C4 as stated fails: `nome: "Ana", telefone: "111", quantidade_pecas: 2` is
accepted (201), but with `anexo: 1e999` added, a number that no float64 holds,
the decoder rejects the body and the handler answers with the invalid-payload
response (400, with `received_json`) without calling `Create`. -/
theorem C4_counterexample :
    (∀ isEmail : String → Bool,
      (CreateOrcamento isEmail sampleRepo
        (.ok ⟨"(body)", anaDoc [("quantidade_pecas", .num (.int 2))]⟩)).response.status = 201) ∧
    (∀ (isEmail : String → Bool) (repo : OrcamentoRepository),
      (CreateOrcamento isEmail repo
        (.ok ⟨"(body)", anaDoc [("quantidade_pecas", .num (.int 2)),
          ("anexo", .num (.dec 1 999))]⟩)).response.status = 400 ∧
      (CreateOrcamento isEmail repo
        (.ok ⟨"(body)", anaDoc [("quantidade_pecas", .num (.int 2)),
          ("anexo", .num (.dec 1 999))]⟩)).response.body.keys
        = ["error", "details", "received_json", "help"] ∧
      (CreateOrcamento isEmail repo
        (.ok ⟨"(body)", anaDoc [("quantidade_pecas", .num (.int 2)),
          ("anexo", .num (.dec 1 999))]⟩)).created = []) := by
  constructor
  · intro isEmail
    rfl
  · intro isEmail repo
    exact ⟨rfl, rfl, rfl⟩

/-- C5: a body whose `nome` or `telefone` is missing or empty gets the
invalid-payload response (400; `error, details, received_json, help`, the
last-but-one echoing the body) whatever its quantity fields are; the quantity
check is not reached (the rejection is not `MissingQuantity`) and `Create` is
not called. -/
theorem C5_missing_name_or_phone (isEmail : String → Bool) (repo : OrcamentoRepository)
    (b : RequestBody)
    (h : strMember "nome" b.doc = "" ∨ strMember "telefone" b.doc = "") :
    ∃ detail,
      CreateOrcamento isEmail repo (.ok b) =
        ⟨⟨400, .H [("error", .text "Invalid request data"), ("details", .text detail),
                    ("received_json", .text b.raw), ("help", .text helpInvalid)]⟩, []⟩ ∧
      normalize isEmail b.doc = .error (.InvalidPayload detail) ∧
      normalize isEmail b.doc ≠ .error .MissingQuantity := by
  obtain ⟨e, he⟩ := ShouldBindJSON_error_of_empty isEmail h
  refine ⟨e.Error, ?_, normalize_bind_error he, ?_⟩
  · rw [CreateOrcamento_bind_error he]
    rfl
  · rw [normalize_bind_error he]
    simp

/-- C5 at a body with `telefone: "111"` only: neither `nome` nor a quantity. -/
theorem C5_missing_name_or_phone_witness :
    lastMember "nome" [("telefone", .str "111")] = none ∧
    lastMember "quantidade_pecas" [("telefone", .str "111")] = none ∧
    lastMember "quantidadePecas" [("telefone", .str "111")] = none ∧
    ∃ detail,
      CreateOrcamento sampleIsEmail sampleRepo
          (.ok ⟨"(body)", some (.obj [("telefone", .str "111")])⟩) =
        ⟨⟨400, .H [("error", .text "Invalid request data"), ("details", .text detail),
                    ("received_json", .text "(body)"), ("help", .text helpInvalid)]⟩, []⟩ ∧
      normalize sampleIsEmail (some (.obj [("telefone", .str "111")])) =
        .error (.InvalidPayload detail) ∧
      normalize sampleIsEmail (some (.obj [("telefone", .str "111")])) ≠
        .error .MissingQuantity :=
  ⟨rfl, rfl, rfl,
   C5_missing_name_or_phone sampleIsEmail sampleRepo
     ⟨"(body)", some (.obj [("telefone", .str "111")])⟩ (Or.inl (by decide))⟩

/-- C6, amended: a body whose `email` is a non-empty string that the email
pattern rejects gets the invalid-payload response; a well-typed body with
non-empty `nome` and `telefone`, quantities that are `0` or positive with one
of them positive, and an `email` that is omitted, `null` or the empty string
reaches `Create` with an entity whose `Email` is empty. -/
theorem C6_email (isEmail : String → Bool) (repo : OrcamentoRepository) (b : RequestBody) :
    (strMember "email" b.doc ≠ "" → isEmail (strMember "email" b.doc) = false →
      ∃ detail,
        CreateOrcamento isEmail repo (.ok b) =
          ⟨⟨400, .H [("error", .text "Invalid request data"), ("details", .text detail),
                      ("received_json", .text b.raw), ("help", .text helpInvalid)]⟩, []⟩ ∧
        normalize isEmail b.doc = .error (.InvalidPayload detail)) ∧
    (∀ req, decodeJSON b.doc = .ok req →
      strMember "nome" b.doc ≠ "" → strMember "telefone" b.doc ≠ "" →
      0 ≤ intMember "quantidade_pecas" b.doc → 0 ≤ intMember "quantidadePecas" b.doc →
      (0 < intMember "quantidade_pecas" b.doc ∨ 0 < intMember "quantidadePecas" b.doc) →
      strMember "email" b.doc = "" →
      ∃ o, (CreateOrcamento isEmail repo (.ok b)).created = [o] ∧
        normalize isEmail b.doc = .ok o ∧ o.Email = "") := by
  constructor
  · intro hne hbad
    have hb : ∃ e, ShouldBindJSON isEmail b.doc = .error e := by
      cases hb : ShouldBindJSON isEmail b.doc with
      | error e => exact ⟨e, rfl⟩
      | ok req =>
        exfalso
        obtain ⟨hd, hv⟩ := ShouldBindJSON_ok.mp hb
        obtain ⟨_, he, _, _, _⟩ := (validateStruct_eq_nil isEmail req).mp hv
        obtain ⟨_, e2, _, _, _⟩ := decodeJSON_fields hd
        rw [e2] at he
        rcases he with he | he
        · exact hne he
        · rw [hbad] at he
          exact Bool.noConfusion he
    obtain ⟨e, he⟩ := hb
    refine ⟨e.Error, ?_, normalize_bind_error he⟩
    rw [CreateOrcamento_bind_error he]
    rfl
  · intro req hd hn ht hq hqa hpos hem
    obtain ⟨e1, e2, e3, e4, e5⟩ := decodeJSON_fields hd
    have hv : validateStruct isEmail req = [] := by
      rw [validateStruct_eq_nil]
      refine ⟨by rw [e1]; exact hn, Or.inl (e2.trans hem), by rw [e3]; exact ht, ?_, ?_⟩
      · rw [e4]; omega
      · rw [e5]; omega
    have hb : ShouldBindJSON isEmail b.doc = .ok req := ShouldBindJSON_ok.mpr ⟨hd, hv⟩
    rw [CreateOrcamento_bound hb, normalize_bound hb]
    rw [← e4, ← e5] at hpos
    by_cases h1 : 0 < req.QuantidadePecas
    · rw [if_pos h1, if_pos h1, persist_created]
      exact ⟨_, rfl, rfl, e2.trans hem⟩
    · have h2 : 0 < req.QuantidadePecasAlt := by omega
      rw [if_neg h1, if_neg h1, if_pos h2, if_pos h2, persist_created]
      exact ⟨_, rfl, rfl, e2.trans hem⟩

/-- C6 at two bodies: `email: "not-an-email"` is turned down, and without an
`email` key the entity is created with an empty `Email`. -/
theorem C6_email_witness :
    (∃ detail,
      normalize sampleIsEmail
          (anaDoc [("quantidade_pecas", .num (.int 2)), ("email", .str "not-an-email")]) =
        .error (.InvalidPayload detail)) ∧
    (∃ o, (CreateOrcamento sampleIsEmail sampleRepo
        (.ok ⟨"(body)", anaDoc [("quantidade_pecas", .num (.int 2))]⟩)).created = [o] ∧
      o.Email = "") := by
  constructor
  · obtain ⟨d, _, hd⟩ := (C6_email sampleIsEmail sampleRepo
      ⟨"(body)", anaDoc [("quantidade_pecas", .num (.int 2)),
        ("email", .str "not-an-email")]⟩).1 (by decide) (by decide)
    exact ⟨d, hd⟩
  · obtain ⟨o, ho, _, he⟩ := (C6_email sampleIsEmail sampleRepo
      ⟨"(body)", anaDoc [("quantidade_pecas", .num (.int 2))]⟩).2
      { Nome := "Ana", Telefone := "111", QuantidadePecas := 2 } (by rfl)
      (by decide) (by decide) (by decide) (by decide) (by decide) (by decide)
    exact ⟨o, ho, he⟩

/-- C6 as stated fails: with `email: ""` the key is present and its value is no
email address, yet `omitempty` skips the rule and the entity is created (201)
with an empty `Email`, whatever the email pattern is. -/
theorem C6_counterexample :
    lastMember "email"
      [("nome", .str "Ana"), ("telefone", .str "111"),
       ("quantidade_pecas", .num (.int 2)), ("email", .str "")] = some (.str "") ∧
    ∀ isEmail : String → Bool,
      CreateOrcamento isEmail sampleRepo
        (.ok ⟨"(body)", anaDoc [("quantidade_pecas", .num (.int 2)), ("email", .str "")]⟩) =
      ⟨⟨201, .H [("message", .text "Orçamento criado com sucesso"),
                  ("orcamento", .orcamento
                    { ID := 1, Nome := "Ana", Telefone := "111", QuantidadePecas := 2,
                      Email := "" })]⟩,
       [{ Nome := "Ana", Telefone := "111", QuantidadePecas := 2, Email := "" }]⟩ := by
  refine ⟨rfl, ?_⟩
  intro isEmail
  rfl

/-- C7: `CreateOrcamento` answers 201 with body `message, orcamento` exactly when
normalisation succeeds and `Create` returns no error, 500 with body
`error, details` exactly when normalisation succeeds and `Create` returns an
error, and 400 in every other case; `Create` is called at most once, and only
with the entity normalisation produced. -/
theorem C7_create_responses (isEmail : String → Bool) (repo : OrcamentoRepository)
    (body : Except String RequestBody) :
    ((CreateOrcamento isEmail repo body).response.status = 201 ↔
      ∃ b o stored, body = .ok b ∧ normalize isEmail b.doc = .ok o ∧
        repo.Create o = .ok stored) ∧
    (∀ b o stored, body = .ok b → normalize isEmail b.doc = .ok o →
      repo.Create o = .ok stored →
      CreateOrcamento isEmail repo body =
        ⟨⟨201, .H [("message", .text "Orçamento criado com sucesso"),
                    ("orcamento", .orcamento stored)]⟩, [o]⟩) ∧
    ((CreateOrcamento isEmail repo body).response.status = 500 ↔
      ∃ b o e, body = .ok b ∧ normalize isEmail b.doc = .ok o ∧ repo.Create o = .error e) ∧
    (∀ b o e, body = .ok b → normalize isEmail b.doc = .ok o → repo.Create o = .error e →
      CreateOrcamento isEmail repo body =
        ⟨⟨500, .H [("error", .text "Failed to create orcamento"),
                    ("details", .text e.Error)]⟩, [o]⟩) ∧
    ((¬ ∃ b o, body = .ok b ∧ normalize isEmail b.doc = .ok o) →
      (CreateOrcamento isEmail repo body).response.status = 400 ∧
      (CreateOrcamento isEmail repo body).created = []) ∧
    (CreateOrcamento isEmail repo body).created.length ≤ 1 ∧
    (∀ o, o ∈ (CreateOrcamento isEmail repo body).created →
      ∃ b, body = .ok b ∧ normalize isEmail b.doc = .ok o) := by
  rcases body with err | b
  · refine ⟨⟨?_, ?_⟩, ?_, ⟨?_, ?_⟩, ?_, ?_, ?_, ?_⟩
    · intro h; simp [CreateOrcamento] at h
    · rintro ⟨_, _, _, h, _⟩; cases h
    · intro _ _ _ h; cases h
    · intro h; simp [CreateOrcamento] at h
    · rintro ⟨_, _, _, h, _⟩; cases h
    · intro _ _ _ h; cases h
    · intro _; exact ⟨rfl, rfl⟩
    · simp [CreateOrcamento]
    · intro o h; simp [CreateOrcamento] at h
  · rw [CreateOrcamento_normalize]
    cases hn : normalize isEmail b.doc with
    | error r =>
      have hno : ∀ {b1 : RequestBody} {o : Orcamento},
          (Except.ok b : Except String RequestBody) = .ok b1 →
          normalize isEmail b1.doc = .ok o → False := by
        intro b1 o hb ho
        cases hb
        rw [hn] at ho
        cases ho
      have h400 : (match (Except.error r : Except RejectionReason Orcamento) with
            | .error (.InvalidPayload d) => invalidOutcome d b.raw
            | .error .MissingQuantity => missingOutcome
            | .ok o => persist repo o).response.status = 400 ∧
          (match (Except.error r : Except RejectionReason Orcamento) with
            | .error (.InvalidPayload d) => invalidOutcome d b.raw
            | .error .MissingQuantity => missingOutcome
            | .ok o => persist repo o).created = [] := by
        cases r <;> exact ⟨rfl, rfl⟩
      refine ⟨⟨?_, ?_⟩, ?_, ⟨?_, ?_⟩, ?_, ?_, ?_, ?_⟩
      · intro h; rw [h400.1] at h; cases h
      · rintro ⟨_, _, _, hb, ho, _⟩; exact (hno hb ho).elim
      · intro _ _ _ hb ho _; exact (hno hb ho).elim
      · intro h; rw [h400.1] at h; cases h
      · rintro ⟨_, _, _, hb, ho, _⟩; exact (hno hb ho).elim
      · intro _ _ _ hb ho _; exact (hno hb ho).elim
      · intro _; exact h400
      · rw [h400.2]; simp
      · intro o h; rw [h400.2] at h; cases h
    | ok o =>
      have hsame : ∀ {b1 : RequestBody} {o1 : Orcamento},
          (Except.ok b : Except String RequestBody) = .ok b1 →
          normalize isEmail b1.doc = .ok o1 → o1 = o := by
        intro b1 o1 hb ho
        cases hb
        rw [hn] at ho
        cases ho
        rfl
      dsimp only
      cases hc : repo.Create o with
      | error e =>
        have hp : persist repo o =
            ⟨⟨500, .H [("error", .text "Failed to create orcamento"),
                        ("details", .text e.Error)]⟩, [o]⟩ := by
          simp only [persist, hc]
        rw [hp]
        refine ⟨⟨?_, ?_⟩, ?_, ⟨?_, ?_⟩, ?_, ?_, ?_, ?_⟩
        · intro h; cases h
        · rintro ⟨_, o1, st, hb, ho, hs⟩
          have := hsame hb ho
          subst this
          rw [hc] at hs
          cases hs
        · intro _ o1 st hb ho hs
          have := hsame hb ho
          subst this
          rw [hc] at hs
          cases hs
        · intro _; exact ⟨b, o, e, rfl, hn, hc⟩
        · intro _; rfl
        · intro _ o1 e1 hb ho hs
          have := hsame hb ho
          subst this
          rw [hc] at hs
          cases hs
          rfl
        · intro hnone; exact (hnone ⟨b, o, rfl, hn⟩).elim
        · simp
        · intro o1 h
          simp only [List.mem_singleton] at h
          subst h
          exact ⟨b, rfl, hn⟩
      | ok stored =>
        have hp : persist repo o =
            ⟨⟨201, .H [("message", .text "Orçamento criado com sucesso"),
                        ("orcamento", .orcamento stored)]⟩, [o]⟩ := by
          simp only [persist, hc]
        rw [hp]
        refine ⟨⟨?_, ?_⟩, ?_, ⟨?_, ?_⟩, ?_, ?_, ?_, ?_⟩
        · intro _; exact ⟨b, o, stored, rfl, hn, hc⟩
        · intro _; rfl
        · intro _ o1 st hb ho hs
          have := hsame hb ho
          subst this
          rw [hc] at hs
          cases hs
          rfl
        · intro h; cases h
        · rintro ⟨_, o1, e1, hb, ho, hs⟩
          have := hsame hb ho
          subst this
          rw [hc] at hs
          cases hs
        · intro _ o1 e1 hb ho hs
          have := hsame hb ho
          subst this
          rw [hc] at hs
          cases hs
        · intro hnone; exact (hnone ⟨b, o, rfl, hn⟩).elim
        · simp
        · intro o1 h
          simp only [List.mem_singleton] at h
          subst h
          exact ⟨b, rfl, hn⟩

/-- C7 at the body `nome: "Ana", telefone: "111", quantidade_pecas: 2`, with a
store that works and with one that is down, and at an empty object. -/
theorem C7_create_responses_witness :
    (CreateOrcamento sampleIsEmail sampleRepo
      (bodyOf (anaDoc [("quantidade_pecas", .num (.int 2))]))).response.status = 201 ∧
    (CreateOrcamento sampleIsEmail brokenRepo
      (bodyOf (anaDoc [("quantidade_pecas", .num (.int 2))]))).response.status = 500 ∧
    (CreateOrcamento sampleIsEmail sampleRepo (bodyOf (some (.obj [])))).response.status
      = 400 := by
  refine ⟨?_, ?_, ?_⟩
  · exact (C7_create_responses sampleIsEmail sampleRepo
      (bodyOf (anaDoc [("quantidade_pecas", .num (.int 2))]))).1.mpr
      ⟨_, { Nome := "Ana", Telefone := "111", QuantidadePecas := 2 },
        { ID := 1, Nome := "Ana", Telefone := "111", QuantidadePecas := 2 }, rfl, rfl, rfl⟩
  · exact (C7_create_responses sampleIsEmail brokenRepo
      (bodyOf (anaDoc [("quantidade_pecas", .num (.int 2))]))).2.2.1.mpr
      ⟨_, { Nome := "Ana", Telefone := "111", QuantidadePecas := 2 },
        .other "connection refused", rfl, rfl, rfl⟩
  · refine ((C7_create_responses sampleIsEmail sampleRepo
      (bodyOf (some (.obj [])))).2.2.2.2.1 ?_).1
    rintro ⟨b, o, hb, ho⟩
    cases hb
    cases ho

/-- C8: `GetOrcamento` answers 400 with body `error` (and asks the repository
nothing) when the id is not a well-formed unsigned integer; otherwise it calls
`GetByID` with that integer, once, and answers 404 with body `error` when
`GetByID` returns any error and 200 with the entity itself when it succeeds. -/
theorem C8_get_responses (repo : OrcamentoRepository) (idStr : String) :
    (¬ wellFormedUint32 idStr →
      GetOrcamento repo idStr = ⟨⟨400, .H [("error", .text "Invalid ID format")]⟩, []⟩) ∧
    (wellFormedUint32 idStr →
      (GetOrcamento repo idStr).lookedUp = [decimalValue idStr] ∧
      (∀ e, repo.GetByID (decimalValue idStr) = .error e →
        (GetOrcamento repo idStr).response =
          ⟨404, .H [("error", .text "Orçamento não encontrado")]⟩) ∧
      (∀ o, repo.GetByID (decimalValue idStr) = .ok o →
        (GetOrcamento repo idStr).response = ⟨200, .entity o⟩)) := by
  constructor
  · intro hw
    obtain ⟨e, he⟩ := (ParseUint_error_iff idStr).mpr hw
    simp only [GetOrcamento, he]
  · intro hw
    have hp : ParseUint idStr 32 = .ok (decimalValue idStr) :=
      (ParseUint_iff idStr _).mpr ⟨hw, rfl⟩
    refine ⟨?_, ?_, ?_⟩
    · simp only [GetOrcamento, hp]
      cases repo.GetByID (decimalValue idStr) <;> rfl
    · intro e he
      simp only [GetOrcamento, hp, he]
    · intro o ho
      simp only [GetOrcamento, hp, ho]

/-- C8 at the ids `"abc"`, `"4294967296"` (one more than 32 bits hold) and
`"42"`. -/
theorem C8_get_responses_witness :
    (GetOrcamento sampleRepo "abc").response.status = 400 ∧
    (GetOrcamento sampleRepo "4294967296").response.status = 400 ∧
    (GetOrcamento sampleRepo "42").lookedUp = [42] ∧
    (GetOrcamento sampleRepo "42").response.status = 404 := by
  have h42 : wellFormedUint32 "42" := ⟨by decide, by decide, by decide⟩
  have habc : ¬ wellFormedUint32 "abc" := fun h => absurd (h.2.1 'a' (by decide)) (by decide)
  have hbig : ¬ wellFormedUint32 "4294967296" := fun h => absurd h.2.2 (by decide)
  refine ⟨?_, ?_, ?_, ?_⟩
  · rw [(C8_get_responses sampleRepo "abc").1 habc]
  · rw [(C8_get_responses sampleRepo "4294967296").1 hbig]
  · exact ((C8_get_responses sampleRepo "42").2 h42).1.trans (by decide)
  · rw [((C8_get_responses sampleRepo "42").2 h42).2.1 .recordNotFound rfl]

/-- C9, amended: `GetOrcamento` answers 404 whenever `GetByID` returns an error,
be it "record not found" or any other failure of the store, and it never
answers 500. -/
theorem C9_lookup_errors (repo : OrcamentoRepository) (idStr : String) :
    (wellFormedUint32 idStr →
      ∀ e, repo.GetByID (decimalValue idStr) = .error e →
        (GetOrcamento repo idStr).response.status = 404) ∧
    (GetOrcamento repo idStr).response.status ≠ 500 := by
  constructor
  · intro hw e he
    have hp : ParseUint idStr 32 = .ok (decimalValue idStr) :=
      (ParseUint_iff idStr _).mpr ⟨hw, rfl⟩
    simp only [GetOrcamento, hp, he]
  · unfold GetOrcamento
    cases ParseUint idStr 32 with
    | error e => simp
    | ok id =>
      dsimp only
      cases repo.GetByID id <;> simp

/-- C9 at the id `"7"`, for a missing record and for a store that is down. -/
theorem C9_lookup_errors_witness :
    (GetOrcamento sampleRepo "7").response.status = 404 ∧
    (GetOrcamento brokenRepo "7").response.status = 404 := by
  have h7 : wellFormedUint32 "7" := ⟨by decide, by decide, by decide⟩
  exact ⟨(C9_lookup_errors sampleRepo "7").1 h7 .recordNotFound rfl,
    (C9_lookup_errors brokenRepo "7").1 h7 (.other "connection refused") rfl⟩

/-- C9 as stated fails: when `GetByID` fails with an error that is not "record
not found" (the store is down), the handler still answers 404, not 500. -/
theorem C9_counterexample :
    brokenRepo.GetByID 7 = .error (.other "connection refused") ∧
    RepoError.other "connection refused" ≠ RepoError.recordNotFound ∧
    (GetOrcamento brokenRepo "7").lookedUp = [7] ∧
    (GetOrcamento brokenRepo "7").response =
      ⟨404, .H [("error", .text "Orçamento não encontrado")]⟩ ∧
    (GetOrcamento brokenRepo "7").response.status ≠ 500 := by
  refine ⟨rfl, by decide, by decide, by decide, by decide⟩

/-- C10: `FullName` returns `FirstName`, one space, `LastName`, nothing trimmed:
an empty first name gives `" " ++ LastName`, an empty last name gives
`FirstName ++ " "`, both empty give the one-character string `" "`; the user is
left unchanged. -/
theorem C10_full_name (u : User) :
    u.FullName.1 = u.FirstName ++ " " ++ u.LastName ∧
    u.FullName.1.length = u.FirstName.length + 1 + u.LastName.length ∧
    u.FullName.2 = u ∧
    (u.FirstName = "" → u.FullName.1 = " " ++ u.LastName) ∧
    (u.LastName = "" → u.FullName.1 = u.FirstName ++ " ") ∧
    (u.FirstName = "" → u.LastName = "" → u.FullName.1 = " " ∧ u.FullName.1.length = 1) := by
  refine ⟨rfl, ?_, rfl, ?_, ?_, ?_⟩
  · simp only [User.FullName, String.length_append]
    rfl
  · intro h
    simp only [User.FullName, h, String.empty_append]
  · intro h
    simp only [User.FullName, h, String.append_empty]
  · intro h1 h2
    constructor
    · show u.FirstName ++ " " ++ u.LastName = " "
      rw [h1, h2]
      rfl
    · show (u.FirstName ++ " " ++ u.LastName).length = 1
      rw [h1, h2]
      rfl

/-- C10 on the cases of `TestUser_FullName`. -/
theorem C10_full_name_witness :
    ({ FirstName := "John", LastName := "Doe" } : User).FullName.1 = "John Doe" ∧
    ({ FirstName := "", LastName := "Doe" } : User).FullName.1 = " Doe" ∧
    ({ FirstName := "John", LastName := "" } : User).FullName.1 = "John " ∧
    ({ FirstName := "", LastName := "" } : User).FullName.1 = " " := by
  have h := C10_full_name { FirstName := "John", LastName := "Doe" }
  exact ⟨h.1.trans (by decide), by decide, by decide, by decide⟩

end TurningBack
